import Mathlib

/-!
Clock resolver, oscillator switch and tick sources of the PIC32 Arduino clone

A shallow embedding of `SystemCoreClockUpdate`, `SystemCoreClockSwitch`,
`systicks`, the Timer2 and core-timer routines and `mcuInit`
(`pic32duino.c`) together with the constants of `pic32duino.h` they use.

Registers are natural numbers; `uint32_t` arithmetic is taken modulo `2^32`
where the C code can wrap (the multiplications). Bit masks are the ones
written in the header, applied with the bitwise AND of the C source.
-/

namespace Pic32duino

/-! ## Constants of `pic32duino.h` -/

/-- The crystal frequency `F_XTAL`, in Hz. -/
def F_XTAL : Nat := 20000000
/-- The secondary oscillator frequency `F_SOSC`, in Hz. -/
def F_SOSC : Nat := 32768
/-- The fast RC oscillator frequency `F_FRC`, in Hz. -/
def F_FRC : Nat := 8000000
/-- The low-power RC oscillator frequency `F_LPRC`, in Hz. -/
def F_LPRC : Nat := 31250

/-- Mask and code `CLKCOSC_FRCDIV`, bits 14..12 of OSCCON. -/
def CLKCOSC_FRCDIV : Nat := 0b111 <<< 12
def CLKCOSC_FRC16 : Nat := 0b110 <<< 12
def CLKCOSC_LPRC : Nat := 0b101 <<< 12
def CLKCOSC_SOSC : Nat := 0b100 <<< 12
def CLKCOSC_POSCPLL : Nat := 0b011 <<< 12
def CLKCOSC_POSC : Nat := 0b010 <<< 12
def CLKCOSC_FRCPLL : Nat := 0b001 <<< 12
def CLKCOSC_FRC : Nat := 0b000 <<< 12

/-- Mask and code `CLKFRCDIV_256`, bits 26..24 of OSCCON. -/
def CLKFRCDIV_256 : Nat := 0b111 <<< 24
def CLKFRCDIV_64 : Nat := 0b110 <<< 24
def CLKFRCDIV_32 : Nat := 0b101 <<< 24
def CLKFRCDIV_16 : Nat := 0b100 <<< 24
def CLKFRCDIV_8 : Nat := 0b011 <<< 24
def CLKFRCDIV_4 : Nat := 0b010 <<< 24
def CLKFRCDIV_2 : Nat := 0b001 <<< 24
def CLKFRCDIV_1 : Nat := 0b000 <<< 24

/-- Mask and code `CLKPLLDIV_256`, bits 29..27 of OSCCON. -/
def CLKPLLDIV_256 : Nat := 0b111 <<< 27
def CLKPLLDIV_64 : Nat := 0b110 <<< 27
def CLKPLLDIV_32 : Nat := 0b101 <<< 27
def CLKPLLDIV_16 : Nat := 0b100 <<< 27
def CLKPLLDIV_8 : Nat := 0b011 <<< 27
def CLKPLLDIV_4 : Nat := 0b010 <<< 27
def CLKPLLDIV_2 : Nat := 0b001 <<< 27
def CLKPLLDIV_1 : Nat := 0b000 <<< 27

/-- Mask and code `CLKPLLMULT_24`, bits 18..16 of OSCCON. -/
def CLKPLLMULT_24 : Nat := 0b111 <<< 16
def CLKPLLMULT_21 : Nat := 0b110 <<< 16
def CLKPLLMULT_20 : Nat := 0b101 <<< 16
def CLKPLLMULT_19 : Nat := 0b100 <<< 16
def CLKPLLMULT_18 : Nat := 0b011 <<< 16
def CLKPLLMULT_17 : Nat := 0b010 <<< 16
def CLKPLLMULT_16 : Nat := 0b001 <<< 16
def CLKPLLMULT_15 : Nat := 0b000 <<< 16

/-- Truncation of a natural number to `uint32_t`. -/
def u32 (n : Nat) : Nat := n % 2 ^ 32

/-! ## `SystemCoreClockUpdate` -/

/-- The `switch (DEVCFG2bits.FPLLIDIV)` block: the PLL input divider applied
to `tmp`. The block is written twice in the source, with the same text, in
the `CLKCOSC_POSCPLL` and the `CLKCOSC_FRCPLL` case. A value that matches
no `case` leaves `tmp` as it is. -/
def switchFPLLIDIV (FPLLIDIV tmp : Nat) : Nat :=
  if FPLLIDIV = 0b111 then tmp / 12
  else if FPLLIDIV = 0b110 then tmp / 10
  else if FPLLIDIV = 0b101 then tmp / 6
  else if FPLLIDIV = 0b100 then tmp / 5
  else if FPLLIDIV = 0b011 then tmp / 4
  else if FPLLIDIV = 0b010 then tmp / 3
  else if FPLLIDIV = 0b001 then tmp / 2
  else if FPLLIDIV = 0b000 then tmp / 1
  else tmp

/-- The `switch (OSCCON & CLKPLLMULT_24)` block: the PLL multiplier applied
to `tmp`, in `uint32_t` arithmetic. Written twice in the source with the
same text. -/
def switchPLLMULT (OSCCON tmp : Nat) : Nat :=
  let sel := OSCCON &&& CLKPLLMULT_24
  if sel = CLKPLLMULT_24 then u32 (tmp * 24)
  else if sel = CLKPLLMULT_21 then u32 (tmp * 21)
  else if sel = CLKPLLMULT_20 then u32 (tmp * 20)
  else if sel = CLKPLLMULT_19 then u32 (tmp * 19)
  else if sel = CLKPLLMULT_18 then u32 (tmp * 18)
  else if sel = CLKPLLMULT_17 then u32 (tmp * 17)
  else if sel = CLKPLLMULT_16 then u32 (tmp * 16)
  else if sel = CLKPLLMULT_15 then u32 (tmp * 15)
  else tmp

/-- The `switch (OSCCON & CLKPLLDIV_256)` block: the PLL output divider
applied to `tmp`. Written twice in the source with the same text. -/
def switchPLLDIV (OSCCON tmp : Nat) : Nat :=
  let sel := OSCCON &&& CLKPLLDIV_256
  if sel = CLKPLLDIV_256 then tmp / 256
  else if sel = CLKPLLDIV_64 then tmp / 64
  else if sel = CLKPLLDIV_32 then tmp / 32
  else if sel = CLKPLLDIV_16 then tmp / 16
  else if sel = CLKPLLDIV_8 then tmp / 8
  else if sel = CLKPLLDIV_4 then tmp / 4
  else if sel = CLKPLLDIV_2 then tmp / 2
  else if sel = CLKPLLDIV_1 then tmp / 1
  else tmp

/-- The `switch (OSCCON & CLKFRCDIV_256)` block of the `CLKCOSC_FRCDIV`
case: the FRC post-divider applied to `tmp`. -/
def switchFRCDIV (OSCCON tmp : Nat) : Nat :=
  let sel := OSCCON &&& CLKFRCDIV_256
  if sel = CLKFRCDIV_256 then tmp / 256
  else if sel = CLKFRCDIV_64 then tmp / 64
  else if sel = CLKFRCDIV_32 then tmp / 32
  else if sel = CLKFRCDIV_16 then tmp / 16
  else if sel = CLKFRCDIV_8 then tmp / 8
  else if sel = CLKFRCDIV_4 then tmp / 4
  else if sel = CLKFRCDIV_2 then tmp / 2
  else if sel = CLKFRCDIV_1 then tmp / 1
  else tmp

/-- The value `tmp` that `SystemCoreClockUpdate` computes from the OSCCON
register and the `FPLLIDIV` field of DEVCFG2: the outer
`switch (OSCCON & CLKCOSC_FRCDIV)`, its cases in the order of the source.
`tmp` starts as `F_FRC` and keeps that value when no `case` matches. The
reads of OSCCON within one call all see the same value. -/
def coreClockOf (OSCCON FPLLIDIV : Nat) : Nat :=
  let tmp := F_FRC
  let sel := OSCCON &&& CLKCOSC_FRCDIV
  if sel = CLKCOSC_FRCDIV then switchFRCDIV OSCCON F_FRC
  else if sel = CLKCOSC_FRC16 then F_FRC / 16
  else if sel = CLKCOSC_LPRC then F_LPRC
  else if sel = CLKCOSC_SOSC then F_SOSC
  else if sel = CLKCOSC_POSCPLL then
    switchPLLDIV OSCCON (switchPLLMULT OSCCON (switchFPLLIDIV FPLLIDIV F_XTAL))
  else if sel = CLKCOSC_POSC then F_XTAL
  else if sel = CLKCOSC_FRCPLL then
    switchPLLDIV OSCCON (switchPLLMULT OSCCON (switchFPLLIDIV FPLLIDIV F_FRC))
  else if sel = CLKCOSC_FRC then F_FRC
  else tmp

/-- The PLL input divider ratios by `FPLLIDIV` code, as the comments and
`case` labels of the resolver give them. -/
def idivTable : List Nat := [1, 2, 3, 4, 5, 6, 10, 12]
/-- The PLL multipliers by the code in OSCCON bits 18..16. -/
def multTable : List Nat := [15, 16, 17, 18, 19, 20, 21, 24]
/-- The divider ratios of the PLL output divider (OSCCON bits 29..27) and of
the FRC post-divider (OSCCON bits 26..24), by code. -/
def odivTable : List Nat := [1, 2, 4, 8, 16, 32, 64, 256]

/-- Reading a bit field of `width` bits whose lowest bit is bit `pos`. -/
def bfext (o pos width : Nat) : Nat := (o / 2 ^ pos) % 2 ^ width

/-- Assigning `v` to a bit field of `width` bits whose lowest bit is bit
`pos`: the field takes the low `width` bits of `v`, all other bits stay. -/
def bfins (o pos width v : Nat) : Nat :=
  o - bfext o pos width * 2 ^ pos + (v % 2 ^ width) * 2 ^ pos

/-! ## Machine state -/

/-- A routine that a callback slot can point to: the no-op `empty_handler` of
`pic32duino.c`, or a routine of the user, told apart by a number. -/
inductive Handler where
  | empty_handler
  | user (id : Nat)
  deriving DecidableEq

/-- The registers and global variables the clock and tick code works on.
`FPLLIDIV` is the bit field `DEVCFG2bits.FPLLIDIV`; `IE` is the global
interrupt enable of the processor, which `ei()`, `di()` and the
`__builtin_*_isr_state` calls act on; `CTIF` and `CTIE` are the core-timer
flag in IFS0 and enable in IEC0, `CTIP` and `CTIS` its priority fields in
IPC0. For Timer2: `T2IF`, `T2IE`, `T2IP`, `T2IS` are its flag, enable and
priority fields, `T2MD` is `PMD4bits.T2MD`, `MVEC` is `INTCONbits.MVEC`, and
`TON`, `TCS`, `T32`, `TGATE`, `TCKPS` are the fields of T2CON the code
writes. -/
structure Mcu where
  OSCCON : Nat
  FPLLIDIV : Nat
  SYSKEY : Nat
  IE : Bool
  SystemCoreClock : Nat
  systick_count : Nat
  TMR2 : Nat
  _coretimer_pr : Nat
  _coretimer_isrptr : Handler
  COMPARE : Nat
  COUNT : Nat
  CTIF : Bool
  CTIE : Bool
  CTIP : Nat
  CTIS : Nat
  _tmr2_isrptr : Handler
  PR2 : Nat
  T2IF : Bool
  T2IE : Bool
  T2IP : Nat
  T2IS : Nat
  T2MD : Bool
  MVEC : Bool
  TON : Bool
  TCS : Bool
  T32 : Bool
  TGATE : Bool
  TCKPS : Nat
  deriving DecidableEq

/-- A sample initial state: the global variables as the initialisers of
`pic32duino.c` give them (`SystemCoreClock=F_FRC`, `systick_count=0`,
`_coretimer_pr=0`, `_coretimer_isrptr=empty_handler`,
`_tmr2_isrptr=empty_handler`), every register taken as 0 and interrupts
disabled. -/
def powerUp : Mcu :=
  { OSCCON := 0, FPLLIDIV := 0, SYSKEY := 0, IE := false, SystemCoreClock := F_FRC,
    systick_count := 0, TMR2 := 0, _coretimer_pr := 0,
    _coretimer_isrptr := Handler.empty_handler, COMPARE := 0, COUNT := 0,
    CTIF := false, CTIE := false, CTIP := 0, CTIS := 0,
    _tmr2_isrptr := Handler.empty_handler, PR2 := 0, T2IF := false, T2IE := false,
    T2IP := 0, T2IS := 0, T2MD := false, MVEC := false, TON := false, TCS := false,
    T32 := false, TGATE := false, TCKPS := 0 }

/-- `SystemCoreClockUpdate()`: computes `tmp` from OSCCON and FPLLIDIV and
ends in `return SystemCoreClock = tmp;`. The result is the returned value
and the state after the call. -/
def SystemCoreClockUpdate (s : Mcu) : Nat × Mcu :=
  let tmp := coreClockOf s.OSCCON s.FPLLIDIV
  (tmp, { s with SystemCoreClock := tmp })

/-! ## `SystemCoreClockSwitch` -/

/-- The two toolchains `pic32duino.h` supports; it picks the definitions of
`ei()`, `di()` and the interrupt-state calls by `__XC__` and `__C32__`. -/
inductive Toolchain where
  | XC32
  | C32
  deriving DecidableEq

/-- `__builtin_get_isr_state()`. Under XC32 it is the compiler builtin, which
reads the interrupt state. Under C32 the header defines it as
`INTDisableInterrupts()`, which returns the previous state and disables. -/
def __builtin_get_isr_state (tc : Toolchain) (s : Mcu) : Bool × Mcu :=
  match tc with
  | .XC32 => (s.IE, s)
  | .C32 => (s.IE, { s with IE := false })

/-- `di()`. Under XC32 the header defines it as
`__builtin_enable_interrupts();`, under C32 as `INTDisableInterrupts()`. -/
def di (tc : Toolchain) (s : Mcu) : Mcu :=
  match tc with
  | .XC32 => { s with IE := true }
  | .C32 => { s with IE := false }

/-- `ei()`. Under XC32 `__builtin_enable_interrupts();`, under C32
`INTEnableInterrupts(); INTEnableSystemMultiVectoredInt();`. -/
def ei (tc : Toolchain) (s : Mcu) : Mcu :=
  match tc with
  | .XC32 => { s with IE := true }
  | .C32 => { s with IE := true }

/-- `__builtin_set_isr_state(tmp)`: the builtin under XC32,
`INTRestoreInterrupts(tmp)` under C32; both put the saved state back. -/
def __builtin_set_isr_state (_tc : Toolchain) (tmp : Bool) (s : Mcu) : Mcu :=
  { s with IE := tmp }

/-- A register access of the switch routine. -/
inductive Access where
  | writeSYSKEY (v : Nat)
  | writeNOSC (v : Nat)
  | writeOSWEN (v : Nat)
  | readOSWEN (v : Nat)
  deriving DecidableEq

/-- A register access together with the global interrupt enable at the
moment it is made. -/
structure Step where
  access : Access
  ie : Bool
  deriving DecidableEq

/-- The body of the `do ... while` loop: the two unlock keys, the write of
the `NOSC` field (OSCCON bits 10..8, three bits of the `uint8_t` argument),
the write of 1 to `OSWEN` (OSCCON bit 0) and the re-lock key. -/
def switchAttempt (nosc : Nat) (s : Mcu) : Mcu × List Step :=
  let s1 := { s with SYSKEY := 0xAA996655 }
  let s2 := { s1 with SYSKEY := 0x556699AA }
  let s3 := { s2 with OSCCON := bfins s2.OSCCON 8 3 nosc }
  let s4 := { s3 with OSCCON := bfins s3.OSCCON 0 1 1 }
  let s5 := { s4 with SYSKEY := 0x33333333 }
  (s5, [⟨.writeSYSKEY 0xAA996655, s.IE⟩, ⟨.writeSYSKEY 0x556699AA, s1.IE⟩,
        ⟨.writeNOSC (nosc % 2 ^ 3), s2.IE⟩, ⟨.writeOSWEN 1, s3.IE⟩,
        ⟨.writeSYSKEY 0x33333333, s4.IE⟩])

/-- One pass of the loop up to and including the test `OSCCONbits.OSWEN`:
the body, then the oscillator hardware acts on OSCCON (`hw0` maps the value
the body left to the value the register holds when it is polled), then the
poll. The result is the state, the accesses made and the value read. -/
def switchPass (nosc : Nat) (hw0 : Nat → Nat) (s : Mcu) : Mcu × List Step × Nat :=
  let (s5, tr) := switchAttempt nosc s
  let s6 := { s5 with OSCCON := hw0 s5.OSCCON }
  let oswen := bfext s6.OSCCON 0 1
  (s6, tr ++ [⟨.readOSWEN oswen, s6.IE⟩], oswen)

/-- The loop `do { ... } while (OSCCONbits.OSWEN);` run for at most `fuel`
passes. `hw j` is what the hardware does to OSCCON before the poll of pass
`j` (counted from 0). `none` when the loop has not ended within `fuel`
passes. -/
def switchLoop (nosc : Nat) : Nat → (Nat → Nat → Nat) → Mcu → List Step →
    Option (Mcu × List Step)
  | 0, _, _, _ => none
  | fuel + 1, hw, s, tr =>
    let (s6, tr6, oswen) := switchPass nosc (hw 0) s
    if oswen ≠ 0 then switchLoop nosc fuel (fun j => hw (j + 1)) s6 (tr ++ tr6)
    else some (s6, tr ++ tr6)

/-- `SystemCoreClockSwitch(nosc)` built with toolchain `tc`, on hardware
`hw`, with the loop bounded by `fuel` passes: save the interrupt state,
`di()`, the loop, `ei()`, restore the interrupt state, then
`return SystemCoreClockUpdate();`. The result is the returned value, the
final state and the register accesses of the loop in order; `none` when the
loop has not ended within `fuel` passes. Interrupt handlers that could run
while the enable is on are not part of the model. -/
def SystemCoreClockSwitch (tc : Toolchain) (hw : Nat → Nat → Nat) (fuel : Nat)
    (nosc : Nat) (s : Mcu) : Option (Nat × Mcu × List Step) :=
  let (tmp, s1) := __builtin_get_isr_state tc s
  let s2 := di tc s1
  match switchLoop nosc fuel hw s2 [] with
  | none => none
  | some (s3, tr) =>
    let s4 := ei tc s3
    let s5 := __builtin_set_isr_state tc tmp s4
    let (r, s6) := SystemCoreClockUpdate s5
    some (r, s6, tr)

/-- The macro `SystemCoreClockFRC()`. -/
def SystemCoreClockFRC (tc : Toolchain) (hw : Nat → Nat → Nat) (fuel : Nat) (s : Mcu) :=
  SystemCoreClockSwitch tc hw fuel 0b000 s
/-- The macro `SystemCoreClockFRCPLL()`. -/
def SystemCoreClockFRCPLL (tc : Toolchain) (hw : Nat → Nat → Nat) (fuel : Nat) (s : Mcu) :=
  SystemCoreClockSwitch tc hw fuel 0b001 s
/-- The macro `SystemCoreClockPOSC()`. -/
def SystemCoreClockPOSC (tc : Toolchain) (hw : Nat → Nat → Nat) (fuel : Nat) (s : Mcu) :=
  SystemCoreClockSwitch tc hw fuel 0b010 s
/-- The macro `SystemCoreClockPOSCPLL()`. -/
def SystemCoreClockPOSCPLL (tc : Toolchain) (hw : Nat → Nat → Nat) (fuel : Nat) (s : Mcu) :=
  SystemCoreClockSwitch tc hw fuel 0b011 s
/-- The macro `SystemCoreClockSOSC()`. -/
def SystemCoreClockSOSC (tc : Toolchain) (hw : Nat → Nat → Nat) (fuel : Nat) (s : Mcu) :=
  SystemCoreClockSwitch tc hw fuel 0b100 s
/-- The macro `SystemCoreClockLPRC()`. -/
def SystemCoreClockLPRC (tc : Toolchain) (hw : Nat → Nat → Nat) (fuel : Nat) (s : Mcu) :=
  SystemCoreClockSwitch tc hw fuel 0b101 s
/-- The macro `SystemCoreClockFRC16()`. -/
def SystemCoreClockFRC16 (tc : Toolchain) (hw : Nat → Nat → Nat) (fuel : Nat) (s : Mcu) :=
  SystemCoreClockSwitch tc hw fuel 0b110 s
/-- The macro `SystemCoreClockFRCDIV()`. -/
def SystemCoreClockFRCDIV (tc : Toolchain) (hw : Nat → Nat → Nat) (fuel : Nat) (s : Mcu) :=
  SystemCoreClockSwitch tc hw fuel 0b111 s

/-! ## Hardware behaviours and observations used in the statements -/

/-- The state in which pass `j` of the loop (counted from 0) leaves the
machine after its poll, were the loop to run that far. -/
def stateAtPoll (nosc : Nat) : (Nat → Nat → Nat) → Mcu → Nat → Mcu
  | hw, s, 0 => (switchPass nosc (hw 0) s).1
  | hw, s, j + 1 => stateAtPoll nosc (fun i => hw (i + 1)) (switchPass nosc (hw 0) s).1 j

/-- The register accesses of passes 0 to `j` of the loop, in order, were
the loop to run that far. -/
def traceAtPoll (nosc : Nat) : (Nat → Nat → Nat) → Mcu → Nat → List Step
  | hw, s, 0 => (switchPass nosc (hw 0) s).2.1
  | hw, s, j + 1 =>
    (switchPass nosc (hw 0) s).2.1
      ++ traceAtPoll nosc (fun i => hw (i + 1)) (switchPass nosc (hw 0) s).1 j

/-- The value the poll of pass `j` reads from `OSCCONbits.OSWEN`, on
hardware `hw`, when the routine is entered in state `s`. -/
def oswenAtPoll (nosc : Nat) (hw : Nat → Nat → Nat) (s : Mcu) (j : Nat) : Nat :=
  bfext (stateAtPoll nosc hw s j).OSCCON 0 1

/-- The hardware carrying out a requested switch: `COSC` (bits 14..12) takes
the value of `NOSC` (bits 10..8) and `OSWEN` (bit 0) is cleared; no other
bit of OSCCON changes. -/
def completeSwitch (o : Nat) : Nat :=
  bfins (bfins o 12 3 (bfext o 8 3)) 0 1 0

/-- Hardware that leaves OSCCON alone during the first `k` polls and has
carried out the switch at every later one. -/
def hwCompletesAt (k : Nat) : Nat → Nat → Nat :=
  fun j o => if j < k then o else completeSwitch o

/-- The values read by the polls of a run, in order. -/
def pollReads : List Step → List Nat
  | [] => []
  | ⟨.readOSWEN v, _⟩ :: tr => v :: pollReads tr
  | _ :: tr => pollReads tr

/-! ## Sample configurations -/

/-- Primary crystal with PLL: `COSC = 0b011`, multiplier code `0b001`,
output-divider code `0b010`, `FPLLIDIV = 0b001`. -/
def cfgPoscPll : Mcu :=
  { powerUp with OSCCON := (0b011 <<< 12) ||| (0b001 <<< 16) ||| (0b010 <<< 27), FPLLIDIV := 0b001 }

/-- Primary crystal with PLL, input divider 3 (`FPLLIDIV = 0b010`),
multiplier 15 and output divider 1. -/
def cfgPoscPllDiv3 : Mcu :=
  { powerUp with OSCCON := 0b011 <<< 12, FPLLIDIV := 0b010 }

/-- A configuration whose current source is `cosc` and whose FRC
post-divider code is `frcdiv`, every other bit of OSCCON being set. -/
def cfgSource (cosc frcdiv : Nat) : Mcu :=
  { powerUp with
    OSCCON := bfins (bfins 0xFFFFFFFF 12 3 cosc) 24 3 frcdiv, FPLLIDIV := 0b111 }

/-- Hardware that never carries out the switch: OSCCON stays as written. -/
def hwStuck : Nat → Nat → Nat :=
  fun _ o => o

/-- The outcome `res` of a switch from state `s` is a return with the
value, also left in `SystemCoreClock`, that `SystemCoreClockUpdate` computes
for the configuration of `s` with current source `c`, and the final OSCCON
decodes, under the mask `CLKCOSC_FRCDIV`, to the source constant `K`. -/
def SwitchYields (res : Option (Nat × Mcu × List Step)) (K c : Nat) (s : Mcu) : Prop :=
  ∃ r s' tr, res = some (r, s', tr) ∧ s'.SystemCoreClock = r ∧
    r = (SystemCoreClockUpdate { s with OSCCON := bfins s.OSCCON 12 3 c }).1 ∧
    s'.OSCCON &&& CLKCOSC_FRCDIV = K

/-! ## The tick sources -/

/-- Constants `PWM_PR`, `TMR_PSMASK`, `TMR_IPDEFAULT`, `TMR_ISDEFAULT` of
`pic32duino.h`. -/
def PWM_PR : Nat := 0xffff
def TMR_PSMASK : Nat := 0x07
def TMR_IPDEFAULT : Nat := 2
def TMR_ISDEFAULT : Nat := 0

/-- A call through a callback slot: `empty_handler` does nothing, a routine
of the user acts on the state as `user` says. -/
def callHandler (user : Nat → Mcu → Mcu) : Handler → Mcu → Mcu
  | .empty_handler, s => s
  | .user id, s => user id s

/-- One pass of the loop of `systicks()` as the hardware presents it: the
value read from `systick_count` into `m`, the value read from TMR2, and the
value `systick_count` holds when the loop condition reads it again. -/
structure TickObs where
  high1 : Nat
  low : Nat
  high2 : Nat
  deriving DecidableEq

/-- `systicks()`: `do { m=systick_count; f=TMR2; } while (m ^ systick_count);`
then `return (m | f);`, with `f` a `uint16_t`. `obs j` is what pass `j`
(counted from 0) observes; the loop runs for at most `fuel` passes and the
result is `none` when it has not ended by then. -/
def systicks : Nat → (Nat → TickObs) → Option Nat
  | 0, _ => none
  | fuel + 1, obs =>
    let m := (obs 0).high1
    let f := (obs 0).low % 2 ^ 16
    if m ^^^ (obs 0).high2 ≠ 0 then systicks fuel (fun j => obs (j + 1))
    else some (m ||| f)

/-- The observations of a call of `systicks()` during which `systick_count`
does not change: every pass sees the value of the state, and TMR2 as `t`. -/
def quietObs (s : Mcu) (t : Nat) : Nat → TickObs :=
  fun _ => ⟨s.systick_count, t, s.systick_count⟩

/-- The Timer2 interrupt routine `_T2Interrupt`: clear the flag, add
`1ul<<16` to `systick_count` in `uint32_t` arithmetic, call `_tmr2_isrptr`.
The result is the state after the call and the routines called. -/
def _T2Interrupt (user : Nat → Mcu → Mcu) (s : Mcu) : Mcu × List Handler :=
  let s1 := { s with T2IF := false }
  let s2 := { s1 with systick_count := u32 (s1.systick_count + (1 <<< 16)) }
  (callHandler user s2._tmr2_isrptr s2, [s2._tmr2_isrptr])

/-- `tmr2Init(ps, period)`, with `ps` a `uint8_t` and `period` a `uint16_t`
argument. -/
def tmr2Init (ps period : Nat) (s : Mcu) : Mcu :=
  let s := { s with _tmr2_isrptr := Handler.empty_handler }
  let s := { s with systick_count := 0 }
  let s := { s with T2MD := false }
  let s := { s with TON := false }
  let s := { s with TCS := false }
  let s := { s with T32 := false }
  let s := { s with TCKPS := (ps % 2 ^ 8) &&& TMR_PSMASK }
  let s := { s with TGATE := false }
  let s := { s with TMR2 := 0 }
  let s := { s with PR2 := period % 2 ^ 16 - 0 }
  let s := { s with T2IF := false }
  let s := { s with T2IE := false }
  { s with TON := true }

/-- `tmr2AttachISR(isrptr)`. -/
def tmr2AttachISR (isrptr : Handler) (s : Mcu) : Mcu :=
  let s := { s with _tmr2_isrptr := isrptr }
  let s := { s with T2IP := TMR_IPDEFAULT }
  let s := { s with T2IS := TMR_ISDEFAULT }
  let s := { s with T2IF := false }
  { s with T2IE := true }

/-- `coretimer_init()`: the slot is reset, then `IFS0CLR`, `IPC0CLR` and
`IPC0SET`, `IEC0CLR` act on the core-timer flag, priority, sub-priority and
enable. -/
def coretimer_init (s : Mcu) : Mcu :=
  let s := { s with _coretimer_isrptr := Handler.empty_handler }
  let s := { s with CTIF := false }
  let s := { s with CTIP := 0 }
  let s := { s with CTIP := s.CTIP ||| 2 }
  let s := { s with CTIS := 0 }
  let s := { s with CTIS := s.CTIS ||| 0 }
  let s := { s with CTIE := false }
  { s with CTIE := false }

/-- `coreticks()`: `(2*_CP0_GET_COUNT())` in `uint32_t` arithmetic. -/
def coreticks (s : Mcu) : Nat := u32 (2 * s.COUNT)

/-- `coretimer_setpr(pr)`, with `pr` a `uint32_t` argument: the result is
the returned value `coreticks()` and the state after the call. -/
def coretimer_setpr (pr : Nat) (s : Mcu) : Nat × Mcu :=
  let s := { s with _coretimer_pr := pr / 2 }
  let s := { s with COMPARE := u32 (s.COMPARE + s._coretimer_pr) }
  (coreticks s, s)

/-- `coretimer_getpr()`: the returned value and the state, unchanged. -/
def coretimer_getpr (s : Mcu) : Nat × Mcu :=
  (s._coretimer_pr, s)

/-- The first two statements of `CoreTimerHandler`: the flag is cleared and
COMPARE is set to `_CP0_GET_COMPARE() + _coretimer_pr` in `uint32_t`
arithmetic. -/
def coreTimerRearm (s : Mcu) : Mcu :=
  let s := { s with CTIF := false }
  { s with COMPARE := u32 (s.COMPARE + s._coretimer_pr) }

/-- The core-timer interrupt routine `CoreTimerHandler`: the two statements
above, then the call `_coretimer_isrptr();`. The result is the state after
the call and the routines called. -/
def CoreTimerHandler (user : Nat → Mcu → Mcu) (s : Mcu) : Mcu × List Handler :=
  let s := coreTimerRearm s
  (callHandler user s._coretimer_isrptr s, [s._coretimer_isrptr])

/-- `coretimerAttachISR(isrptr)`. -/
def coretimerAttachISR (isrptr : Handler) (s : Mcu) : Mcu :=
  let s := { s with _coretimer_isrptr := isrptr }
  let s := { s with CTIF := false }
  { s with CTIE := true }

/-- The macro `SYS_UNLOCK()`: `SYSKEY=0x0; SYSKEY=0xAA996655; SYSKEY=0x556699AA;`. -/
def SYS_UNLOCK (s : Mcu) : Mcu :=
  let s := { s with SYSKEY := 0x0 }
  let s := { s with SYSKEY := 0xAA996655 }
  { s with SYSKEY := 0x556699AA }

/-- The macro `SYS_LOCK()`: `SYSKEY=0x0;`. -/
def SYS_LOCK (s : Mcu) : Mcu :=
  { s with SYSKEY := 0x0 }

/-- The part of `mcuInit()` between `SYS_UNLOCK()` and `SYS_LOCK()`:
`OSCCONbits.PBDIV = 0; OSCCONbits.FRCDIV = 1;`. `PBDIV` is the field of
OSCCON bits 20..19 (the mask `0x00180000` of the source), `FRCDIV` the field
of bits 26..24. -/
def mcuInitClock (s : Mcu) : Mcu :=
  let s := { s with OSCCON := bfins s.OSCCON 19 2 0 }
  { s with OSCCON := bfins s.OSCCON 24 3 1 }

/-- The part of `mcuInit()` from `PMD1=0xffff;` to `INTCONbits.MVEC = 1;`.
Of the PMD registers only the Timer2 bit `T2MD` of PMD4 is in this state;
the other bits and ANSELA, ANSELB are registers outside it and are left
out. -/
def mcuInitPeripherals (s : Mcu) : Mcu :=
  let s := { s with T2MD := true }
  { s with MVEC := true }

/-- The part of `mcuInit()` that sets up Timer2, from `PMD4bits.T2MD = 0;`
to `T2CONbits.TON = 1;`. -/
def mcuInitTmr2 (s : Mcu) : Mcu :=
  let s := { s with T2MD := false }
  let s := { s with TON := false, TCS := false, T32 := false, TGATE := false, TCKPS := 0 }
  let s := { s with TCKPS := 0, TCS := false, TGATE := false, T32 := false }
  let s := { s with TMR2 := 0 }
  let s := { s with PR2 := PWM_PR }
  let s := { s with T2IF := false }
  let s := { s with T2IE := true }
  let s := { s with T2IP := TMR_IPDEFAULT, T2IS := TMR_ISDEFAULT }
  { s with TON := true }

/-- `mcuInit()` built with toolchain `tc`: `coretimer_init()`, the clock
set-up inside the unlock sequence, the peripherals, Timer2,
`SystemCoreClockUpdate()` and `ei()`. -/
def mcuInit (tc : Toolchain) (s : Mcu) : Mcu :=
  let s := coretimer_init s
  let s := SYS_LOCK (mcuInitClock (SYS_UNLOCK s))
  let s := mcuInitTmr2 (mcuInitPeripherals s)
  let s := (SystemCoreClockUpdate s).2
  ei tc s

/-- The states the modelled routines can bring about from a power-up state
`s0`, the routines of the user acting as `user` says and the oscillator
hardware in any way. -/
inductive Reachable (user : Nat → Mcu → Mcu) (s0 : Mcu) : Mcu → Prop where
  | start : Reachable user s0 s0
  | tmr2Init (ps period : Nat) {s : Mcu} :
      Reachable user s0 s → Reachable user s0 (tmr2Init ps period s)
  | t2Interrupt {s : Mcu} :
      Reachable user s0 s → Reachable user s0 (_T2Interrupt user s).1
  | tmr2AttachISR (isrptr : Handler) {s : Mcu} :
      Reachable user s0 s → Reachable user s0 (tmr2AttachISR isrptr s)
  | update {s : Mcu} :
      Reachable user s0 s → Reachable user s0 (SystemCoreClockUpdate s).2
  | switch (tc : Toolchain) (hw : Nat → Nat → Nat) (fuel nosc r : Nat) {s t : Mcu}
      (tr : List Step) :
      Reachable user s0 s → SystemCoreClockSwitch tc hw fuel nosc s = some (r, t, tr) →
      Reachable user s0 t
  | coretimer_init {s : Mcu} :
      Reachable user s0 s → Reachable user s0 (coretimer_init s)
  | coretimer_setpr (pr : Nat) {s : Mcu} :
      Reachable user s0 s → Reachable user s0 (coretimer_setpr pr s).2
  | coretimer_getpr {s : Mcu} :
      Reachable user s0 s → Reachable user s0 (coretimer_getpr s).2
  | coreTimerHandler {s : Mcu} :
      Reachable user s0 s → Reachable user s0 (CoreTimerHandler user s).1
  | coretimerAttachISR (isrptr : Handler) {s : Mcu} :
      Reachable user s0 s → Reachable user s0 (coretimerAttachISR isrptr s)
  | mcuInit (tc : Toolchain) {s : Mcu} :
      Reachable user s0 s → Reachable user s0 (mcuInit tc s)

/-- Subtraction of `uint32_t` values. -/
def sub32 (a b : Nat) : Nat := (a + 2 ^ 32 - b % 2 ^ 32) % 2 ^ 32

/-- Sample observations of `systicks()` around a wrap of TMR2: the first
pass reads the high word `0x10000` and finds it changed to `0x20000`, the
second reads `0x20000` twice and the low word 5. -/
def wrapObs : Nat → TickObs :=
  fun j => if j = 0 then ⟨0x10000, 0, 0x20000⟩ else ⟨0x20000, 5, 0x20000⟩

/-- A user routine that leaves the state alone. -/
def userIdle : Nat → Mcu → Mcu :=
  fun _ s => s

/-! ## The peripheral bus clock and the resolver without wrap-around -/

/-- The macro `F_PHB`: `((F_CPU) >> (OSCCONbits.PBDIV))`, with `F_CPU` the
variable `SystemCoreClock` and `PBDIV` the field of OSCCON bits 20..19. -/
def F_PHB (s : Mcu) : Nat := s.SystemCoreClock >>> bfext s.OSCCON 19 2

/-- The `switch (OSCCON & CLKPLLMULT_24)` block computed over unbounded
naturals, for comparison with the `uint32_t` one. -/
def switchPLLMULTNat (OSCCON tmp : Nat) : Nat :=
  let sel := OSCCON &&& CLKPLLMULT_24
  if sel = CLKPLLMULT_24 then tmp * 24
  else if sel = CLKPLLMULT_21 then tmp * 21
  else if sel = CLKPLLMULT_20 then tmp * 20
  else if sel = CLKPLLMULT_19 then tmp * 19
  else if sel = CLKPLLMULT_18 then tmp * 18
  else if sel = CLKPLLMULT_17 then tmp * 17
  else if sel = CLKPLLMULT_16 then tmp * 16
  else if sel = CLKPLLMULT_15 then tmp * 15
  else tmp

/-- The resolver computed over unbounded naturals, for comparison with the
`uint32_t` one: the same text with the multiplication not truncated. -/
def coreClockOfNat (OSCCON FPLLIDIV : Nat) : Nat :=
  let tmp := F_FRC
  let sel := OSCCON &&& CLKCOSC_FRCDIV
  if sel = CLKCOSC_FRCDIV then switchFRCDIV OSCCON F_FRC
  else if sel = CLKCOSC_FRC16 then F_FRC / 16
  else if sel = CLKCOSC_LPRC then F_LPRC
  else if sel = CLKCOSC_SOSC then F_SOSC
  else if sel = CLKCOSC_POSCPLL then
    switchPLLDIV OSCCON (switchPLLMULTNat OSCCON (switchFPLLIDIV FPLLIDIV F_XTAL))
  else if sel = CLKCOSC_POSC then F_XTAL
  else if sel = CLKCOSC_FRCPLL then
    switchPLLDIV OSCCON (switchPLLMULTNat OSCCON (switchFPLLIDIV FPLLIDIV F_FRC))
  else if sel = CLKCOSC_FRC then F_FRC
  else tmp

/-- The macro `cyclesPerMillisecond()`: `(F_CPU / 1000)`. -/
def cyclesPerMillisecond (s : Mcu) : Nat := s.SystemCoreClock / 1000

/-- The loop `while (ticks() - start_time < ms) continue;` for at most
`fuel` polls: `polls j` is the value the `j`-th call of `ticks()` in the loop
returns. The result is the number of polls made when the loop ends, `none`
when it has not ended within `fuel` polls. -/
def delayLoop (start_time ms : Nat) : Nat → (Nat → Nat) → Option Nat
  | 0, _ => none
  | fuel + 1, polls =>
    if sub32 (polls 0) start_time < ms then
      (delayLoop start_time ms fuel (fun j => polls (j + 1))).map (fun n => n + 1)
    else some 1

/-- `delay(ms)`: `start_time = ticks(); ms *= cyclesPerMillisecond();` in
`uint32_t` arithmetic, then the loop. `tk 0` is the value the first call of
`ticks()` returns, `tk (j + 1)` the value of the `j`-th call in the loop. -/
def delay (fuel ms : Nat) (s : Mcu) (tk : Nat → Nat) : Option Nat :=
  let start_time := tk 0
  let ms := u32 (ms * cyclesPerMillisecond s)
  delayLoop start_time ms fuel (fun j => tk (j + 1))

/-! ## GPIO -/

/-- The ports `GPIOA` and `GPIOB` of the unconditional part of the pin
table. -/
inductive Port where
  | GPIOA
  | GPIOB
  deriving DecidableEq

/-- The registers of a port that the pin routines use, out of
`GPIO_TypeDef`; the `SET`, `CLR` and `INV` words act on the register they
belong to and hold no state. -/
structure GPIO_TypeDef where
  ANSEL : Nat
  TRIS : Nat
  PORT : Nat
  LAT : Nat
  deriving DecidableEq

/-- An entry `PIN2GPIO` of the pin table: the port and the 16-bit mask. -/
structure PIN2GPIO where
  gpio : Port
  mask : Nat
  deriving DecidableEq

/-- The table `GPIO_PinDef[]`: its 32 unconditional entries. The entries
compiled in for further ports come after these. -/
def GPIO_PinDef : List PIN2GPIO :=
  [⟨.GPIOA, 1 <<< 0⟩,
   ⟨.GPIOA, 1 <<< 1⟩,
   ⟨.GPIOA, 1 <<< 2⟩,
   ⟨.GPIOA, 1 <<< 3⟩,
   ⟨.GPIOA, 1 <<< 4⟩,
   ⟨.GPIOA, 1 <<< 5⟩,
   ⟨.GPIOA, 1 <<< 6⟩,
   ⟨.GPIOA, 1 <<< 7⟩,
   ⟨.GPIOA, 1 <<< 8⟩,
   ⟨.GPIOA, 1 <<< 9⟩,
   ⟨.GPIOA, 1 <<< 10⟩,
   ⟨.GPIOA, 1 <<< 11⟩,
   ⟨.GPIOA, 1 <<< 12⟩,
   ⟨.GPIOA, 1 <<< 13⟩,
   ⟨.GPIOA, 1 <<< 14⟩,
   ⟨.GPIOA, 1 <<< 15⟩,
   ⟨.GPIOB, 1 <<< 0⟩,
   ⟨.GPIOB, 1 <<< 1⟩,
   ⟨.GPIOB, 1 <<< 2⟩,
   ⟨.GPIOB, 1 <<< 3⟩,
   ⟨.GPIOB, 1 <<< 4⟩,
   ⟨.GPIOB, 1 <<< 5⟩,
   ⟨.GPIOB, 1 <<< 6⟩,
   ⟨.GPIOB, 1 <<< 7⟩,
   ⟨.GPIOB, 1 <<< 8⟩,
   ⟨.GPIOB, 1 <<< 9⟩,
   ⟨.GPIOB, 1 <<< 10⟩,
   ⟨.GPIOB, 1 <<< 11⟩,
   ⟨.GPIOB, 1 <<< 12⟩,
   ⟨.GPIOB, 1 <<< 13⟩,
   ⟨.GPIOB, 1 <<< 14⟩,
   ⟨.GPIOB, 1 <<< 15⟩]

/-- The enum constants `PA0` .. `PA15` of `PIN_TypeDef`: `PA n` is `PAn`. -/
def PA (n : Nat) : Nat := n
/-- The enum constants `PB0` .. `PB15` of `PIN_TypeDef`: `PB n` is `PBn`. -/
def PB (n : Nat) : Nat := 16 + n

/-- Pin modes `INPUT`, `OUTPUT`, `INPUT_PULLUP`. -/
def INPUT : Nat := 0
def OUTPUT : Nat := 1
def INPUT_PULLUP : Nat := 2

/-- The macro `FIO_IN(port, bits)`: `port->TRISSET = (bits)`, which sets the
bits of `bits` in the port's TRIS. -/
def FIO_IN (g : Port → GPIO_TypeDef) (port : Port) (bits : Nat) : Port → GPIO_TypeDef :=
  Function.update g port { g port with TRIS := (g port).TRIS ||| bits }

/-- The macro `FIO_OUT(port, bits)`: `port->TRISCLR = (bits)`, which clears
the bits of `bits` in the port's 32-bit TRIS. -/
def FIO_OUT (g : Port → GPIO_TypeDef) (port : Port) (bits : Nat) : Port → GPIO_TypeDef :=
  Function.update g port { g port with TRIS := (g port).TRIS &&& (0xFFFFFFFF ^^^ bits) }

/-- `pinMode(pin, mode)`: no check on `pin`; `none` stands for an index
outside the table, where the C code reads past the array. -/
def pinMode (pin mode : Nat) (g : Port → GPIO_TypeDef) : Option (Port → GPIO_TypeDef) :=
  match GPIO_PinDef[pin]? with
  | none => none
  | some d => if mode = INPUT then some (FIO_IN g d.gpio d.mask)
              else some (FIO_OUT g d.gpio d.mask)

/-- A sample port state: every TRIS bit of port A set, none of port B. -/
def gpioSample : Port → GPIO_TypeDef
  | .GPIOA => { ANSEL := 0, TRIS := 0xFFFF, PORT := 0, LAT := 0 }
  | .GPIOB => { ANSEL := 0, TRIS := 0, PORT := 0, LAT := 0 }

/-! ## Timers 4 and 5 -/

/-- The registers and variables of Timer4 and Timer5 that `tmr4Init`,
`tmr5Init` and `tmr45Init` write: the callback slots, the `T4MD`, `T5MD`
bits of PMD4, the fields of T4CON and T5CON, the counters and period
registers, and the interrupt flags and enables. -/
structure Tmr45 where
  _tmr4_isrptr : Handler
  _tmr5_isrptr : Handler
  T4MD : Bool
  T5MD : Bool
  T4TON : Bool
  T4TCS : Bool
  T4T32 : Bool
  T4TGATE : Bool
  T4TCKPS : Nat
  T5TON : Bool
  T5TCS : Bool
  T5TGATE : Bool
  T5TCKPS : Nat
  TMR4 : Nat
  PR4 : Nat
  TMR5 : Nat
  PR5 : Nat
  T4IF : Bool
  T4IE : Bool
  T5IF : Bool
  T5IE : Bool
  deriving DecidableEq

/-- `tmr4Init(ps, period)`, with `ps` a `uint8_t` and `period` a `uint16_t`
argument. -/
def tmr4Init (ps period : Nat) (t : Tmr45) : Tmr45 :=
  let t := { t with _tmr4_isrptr := Handler.empty_handler }
  let t := { t with T4MD := false }
  let t := { t with T4TON := false }
  let t := { t with T4TCS := false }
  let t := { t with T4T32 := false }
  let t := { t with T4TCKPS := (ps % 2 ^ 8) &&& TMR_PSMASK }
  let t := { t with T4TGATE := false }
  let t := { t with TMR4 := 0 }
  let t := { t with PR4 := period % 2 ^ 16 - 0 }
  let t := { t with T4IF := false }
  let t := { t with T4IE := false }
  { t with T4TON := true }

/-- `tmr5Init(ps, period)`, with `ps` a `uint8_t` and `period` a `uint16_t`
argument. -/
def tmr5Init (ps period : Nat) (t : Tmr45) : Tmr45 :=
  let t := { t with _tmr5_isrptr := Handler.empty_handler }
  let t := { t with T5MD := false }
  let t := { t with T5TON := false }
  let t := { t with T5TCS := false }
  let t := { t with T5TCKPS := (ps % 2 ^ 8) &&& TMR_PSMASK }
  let t := { t with T5TGATE := false }
  let t := { t with TMR5 := 0 }
  let t := { t with PR5 := period % 2 ^ 16 - 0 }
  let t := { t with T5IF := false }
  let t := { t with T5IE := false }
  { t with T5TON := true }

/-- `tmr45Init(ps, period)`, with `period` a `uint32_t` argument:
`tmr4Init(ps, period); tmr5Init(ps, period >> 16); T4CONbits.T32 = 1;
TMR4 = 0; PR2 = period-0;`. The last statement writes the period register of
Timer2, which is part of the state `Mcu`. -/
def tmr45Init (ps period : Nat) (st : Mcu × Tmr45) : Mcu × Tmr45 :=
  let s := st.1
  let t := st.2
  let t := tmr4Init ps period t
  let t := tmr5Init ps (period >>> 16) t
  let t := { t with T4T32 := true }
  let t := { t with TMR4 := 0 }
  let s := { s with PR2 := u32 period - 0 }
  (s, t)

/-- A sample state of Timer4 and Timer5: slots empty, registers 0. -/
def tmr45Sample : Tmr45 :=
  { _tmr4_isrptr := Handler.empty_handler, _tmr5_isrptr := Handler.empty_handler,
    T4MD := false, T5MD := false, T4TON := false, T4TCS := false, T4T32 := false,
    T4TGATE := false, T4TCKPS := 0, T5TON := false, T5TCS := false, T5TGATE := false,
    T5TCKPS := 0, TMR4 := 0, PR4 := 0, TMR5 := 0, PR5 := 0, T4IF := false, T4IE := false,
    T5IF := false, T5IE := false }

/-! ## `u1Print` and `u2Print` -/

/-- The terminator of a C string. -/
def NUL : Char := Char.ofNat 0

/-- `strcpy(dst, src)` on a buffer `dst`: the characters of `src`, the
terminator, and what the buffer held beyond them. -/
def strcpy (dst src : List Char) : List Char :=
  src ++ NUL :: dst.drop (src.length + 1)

/-- The C string a buffer holds: its characters up to the first terminator;
this is what `uart1Puts` and `uart2Puts` send. -/
def cString (buf : List Char) : List Char :=
  buf.takeWhile (fun c => c ≠ NUL)

/-- The character `'0'+(dat % 10)`, with the truncating `%` of C, stored
into a `char`. -/
def digitChar (dat : Int) : Char :=
  Char.ofNat (Int.toNat ((48 + Int.tmod dat 10) % 256))

/-- Negation `-dat` of an `int32_t`, wrapping at `2^31`. -/
def neg32 (dat : Int) : Int :=
  if 2147483647 < -dat then -dat - 4294967296 else -dat

/-- The writes of digits and commas of `u1Print` and `u2Print`, from
`uRAM[19]` down to `uRAM[7]`; the two routines have the same text. The
`dat /= 10;` after the last write has no effect on the buffer and is left
out. -/
def fillDigits (uRAM : List Char) (dat : Int) : List Char :=
  let uRAM := uRAM.set 19 (digitChar dat)
  let dat := Int.tdiv dat 10
  let uRAM := uRAM.set 18 (digitChar dat)
  let dat := Int.tdiv dat 10
  let uRAM := uRAM.set 17 (digitChar dat)
  let dat := Int.tdiv dat 10
  let uRAM := uRAM.set 16 ','
  let uRAM := uRAM.set 15 (digitChar dat)
  let dat := Int.tdiv dat 10
  let uRAM := uRAM.set 14 (digitChar dat)
  let dat := Int.tdiv dat 10
  let uRAM := uRAM.set 13 (digitChar dat)
  let dat := Int.tdiv dat 10
  let uRAM := uRAM.set 12 ','
  let uRAM := uRAM.set 11 (digitChar dat)
  let dat := Int.tdiv dat 10
  let uRAM := uRAM.set 10 (digitChar dat)
  let dat := Int.tdiv dat 10
  let uRAM := uRAM.set 9 (digitChar dat)
  let dat := Int.tdiv dat 10
  let uRAM := uRAM.set 8 ','
  let uRAM := uRAM.set 7 (digitChar dat)
  uRAM

/-- The buffer `uRAM` of `u1Print` and `u2Print` when it is handed to the
send routine: `strcpy(uRAM, str)`, the sign, the digits. `uRAM0` is what the
40-character buffer holds on entry. -/
def fillBuffer (uRAM0 str : List Char) (dat : Int) : List Char :=
  let uRAM := strcpy uRAM0 str
  if dat < 0 then fillDigits (uRAM.set 6 '-') (neg32 dat)
  else fillDigits uRAM dat

/-- `u1Print(str, dat)`: the characters sent by `uart1Puts(uRAM)`. -/
def u1Print (uRAM0 str : List Char) (dat : Int) : List Char :=
  cString (fillBuffer uRAM0 str dat)

/-- `u2Print(str, dat)`: the characters sent by `uart2Puts(uRAM)`. -/
def u2Print (uRAM0 str : List Char) (dat : Int) : List Char :=
  cString (fillBuffer uRAM0 str dat)

/-- The decimal digit of `n` of weight `10^i`, as a character. -/
def decDigit (n i : Nat) : Char := Char.ofNat (48 + n / 10 ^ i % 10)

/-- The thirteen characters of positions 7 to 19 for the value `n`: the
ten decimal digits, most significant first, with commas at positions 8, 12
and 16. -/
def numberField (n : Nat) : List Char :=
  [decDigit n 9, ',', decDigit n 8, decDigit n 7, decDigit n 6, ',',
   decDigit n 5, decDigit n 4, decDigit n 3, ',', decDigit n 2, decDigit n 1, decDigit n 0]

/-- A buffer of 40 characters `'?'`, standing for an uninitialised `uRAM`. -/
def uRAMSample : List Char := List.replicate 40 '?'

/-! ## Interrupt enable through the oscillator switch, and the `switch` tables -/

theorem and_mask3 (o p : Nat) : o &&& (7 <<< p) = bfext o p 3 <<< p := by
  apply Nat.eq_of_testBit_eq
  intro i
  have h7 : (7 : Nat) = 2 ^ 3 - 1 := by norm_num
  unfold bfext
  rw [h7, ← Nat.shiftRight_eq_div_pow]
  simp only [Nat.testBit_and, Nat.testBit_shiftLeft, Nat.testBit_mod_two_pow,
    Nat.testBit_shiftRight, Nat.testBit_two_pow_sub_one]
  by_cases h : p ≤ i
  · by_cases h2 : i - p < 3
    · simp [h, h2]
    · simp [h, h2]
  · simp [h]

theorem bfext3_lt (o p : Nat) : bfext o p 3 < 8 := Nat.mod_lt _ (by norm_num)

theorem switchFPLLIDIV_eq (f tmp : Nat) (hf : f < 8) :
    switchFPLLIDIV f tmp = tmp / idivTable.getD f 0 := by
  unfold switchFPLLIDIV idivTable
  interval_cases f <;> simp

theorem switchPLLMULT_eq (o tmp : Nat) :
    switchPLLMULT o tmp = u32 (tmp * multTable.getD (bfext o 16 3) 0) := by
  have hc := bfext3_lt o 16
  unfold switchPLLMULT multTable CLKPLLMULT_24 CLKPLLMULT_21 CLKPLLMULT_20 CLKPLLMULT_19
    CLKPLLMULT_18 CLKPLLMULT_17 CLKPLLMULT_16 CLKPLLMULT_15
  rw [show (0b111 : Nat) = 7 from rfl, and_mask3]
  generalize bfext o 16 3 = c at hc ⊢
  interval_cases c <;> simp

theorem switchPLLDIV_eq (o tmp : Nat) :
    switchPLLDIV o tmp = tmp / odivTable.getD (bfext o 27 3) 0 := by
  have hc := bfext3_lt o 27
  unfold switchPLLDIV odivTable CLKPLLDIV_256 CLKPLLDIV_64 CLKPLLDIV_32 CLKPLLDIV_16
    CLKPLLDIV_8 CLKPLLDIV_4 CLKPLLDIV_2 CLKPLLDIV_1
  rw [show (0b111 : Nat) = 7 from rfl, and_mask3]
  generalize bfext o 27 3 = c at hc ⊢
  interval_cases c <;> simp

theorem switchFRCDIV_eq (o tmp : Nat) :
    switchFRCDIV o tmp = tmp / odivTable.getD (bfext o 24 3) 0 := by
  have hc := bfext3_lt o 24
  unfold switchFRCDIV odivTable CLKFRCDIV_256 CLKFRCDIV_64 CLKFRCDIV_32 CLKFRCDIV_16
    CLKFRCDIV_8 CLKFRCDIV_4 CLKFRCDIV_2 CLKFRCDIV_1
  rw [show (0b111 : Nat) = 7 from rfl, and_mask3]
  generalize bfext o 24 3 = c at hc ⊢
  interval_cases c <;> simp

/-- The resolver in terms of the decoded source code: what each of the
eight values of `COSC` leads to. -/
theorem coreClockOf_cases (o f : Nat) :
    (bfext o 12 3 = 7 → coreClockOf o f = F_FRC / odivTable.getD (bfext o 24 3) 0) ∧
    (bfext o 12 3 = 6 → coreClockOf o f = 500000) ∧
    (bfext o 12 3 = 5 → coreClockOf o f = 31250) ∧
    (bfext o 12 3 = 4 → coreClockOf o f = 32768) ∧
    (bfext o 12 3 = 3 → coreClockOf o f =
      u32 (switchFPLLIDIV f F_XTAL * multTable.getD (bfext o 16 3) 0)
        / odivTable.getD (bfext o 27 3) 0) ∧
    (bfext o 12 3 = 2 → coreClockOf o f = 20000000) ∧
    (bfext o 12 3 = 1 → coreClockOf o f =
      u32 (switchFPLLIDIV f F_FRC * multTable.getD (bfext o 16 3) 0)
        / odivTable.getD (bfext o 27 3) 0) ∧
    (bfext o 12 3 = 0 → coreClockOf o f = 8000000) := by
  unfold coreClockOf
  simp only [switchFRCDIV_eq, switchPLLDIV_eq, switchPLLMULT_eq]
  unfold CLKCOSC_FRCDIV CLKCOSC_FRC16 CLKCOSC_LPRC CLKCOSC_SOSC CLKCOSC_POSCPLL CLKCOSC_POSC
    CLKCOSC_FRCPLL CLKCOSC_FRC
  rw [show (0b111 : Nat) = 7 from rfl, and_mask3]
  refine ⟨?_, ?_, ?_, ?_, ?_, ?_, ?_, ?_⟩ <;> intro h <;> rw [h] <;>
    simp [F_FRC, F_LPRC, F_SOSC, F_XTAL]

/-- The resolver reads OSCCON only through the fields `COSC`, `PLLMULT`,
`FRCDIV` and `PLLODIV`. -/
theorem coreClockOf_congr (o o' f : Nat) (h12 : bfext o' 12 3 = bfext o 12 3)
    (h16 : bfext o' 16 3 = bfext o 16 3) (h24 : bfext o' 24 3 = bfext o 24 3)
    (h27 : bfext o' 27 3 = bfext o 27 3) : coreClockOf o' f = coreClockOf o f := by
  have hc := bfext3_lt o 12
  have h := coreClockOf_cases o f
  have h' := coreClockOf_cases o' f
  rw [h12, h16, h24, h27] at h'
  obtain ⟨a7, a6, a5, a4, a3, a2, a1, a0⟩ := h
  obtain ⟨b7, b6, b5, b4, b3, b2, b1, b0⟩ := h'
  generalize bfext o 12 3 = c at *
  interval_cases c
  · rw [a0 rfl, b0 rfl]
  · rw [a1 rfl, b1 rfl]
  · rw [a2 rfl, b2 rfl]
  · rw [a3 rfl, b3 rfl]
  · rw [a4 rfl, b4 rfl]
  · rw [a5 rfl, b5 rfl]
  · rw [a6 rfl, b6 rfl]
  · rw [a7 rfl, b7 rfl]

/-! ## Bounds -/

theorem idivTable_bounds (f : Nat) (hf : f < 8) :
    0 < idivTable.getD f 0 ∧ idivTable.getD f 0 ≤ 12 := by
  unfold idivTable
  interval_cases f <;> simp

theorem multTable_bounds (m : Nat) (hm : m < 8) :
    15 ≤ multTable.getD m 0 ∧ multTable.getD m 0 ≤ 24 := by
  unfold multTable
  interval_cases m <;> simp

theorem odivTable_bounds (d : Nat) (hd : d < 8) :
    0 < odivTable.getD d 0 ∧ odivTable.getD d 0 ≤ 256 := by
  unfold odivTable
  interval_cases d <;> simp

/-- The product of the PLL stage fits in 32 bits for a base of at most
20 MHz, so the `uint32_t` multiplication does not wrap. -/
theorem u32_pll_product (b i m : Nat) (hb : b ≤ 20000000) (hm : m ≤ 24) :
    u32 (b / i * m) = b / i * m := by
  unfold u32
  apply Nat.mod_eq_of_lt
  have h1 : b / i ≤ b := Nat.div_le_self b i
  have h2 : b / i * m ≤ 20000000 * 24 := Nat.mul_le_mul (le_trans h1 hb) hm
  omega

theorem switchFPLLIDIV_bounds (f b : Nat) (h1 : 8000000 ≤ b) (h2 : b ≤ 20000000) :
    666666 ≤ switchFPLLIDIV f b ∧ switchFPLLIDIV f b ≤ 20000000 := by
  unfold switchFPLLIDIV
  split_ifs <;> omega

theorem coreClockOf_bounds (o f : Nat) :
    31250 ≤ coreClockOf o f ∧ coreClockOf o f ≤ 480000000 := by
  have hc := bfext3_lt o 12
  have hm := multTable_bounds _ (bfext3_lt o 16)
  have hd := odivTable_bounds _ (bfext3_lt o 27)
  have hd' := odivTable_bounds _ (bfext3_lt o 24)
  obtain ⟨a7, a6, a5, a4, a3, a2, a1, a0⟩ := coreClockOf_cases o f
  have key : ∀ b, 8000000 ≤ b → b ≤ 20000000 →
      31250 ≤ u32 (switchFPLLIDIV f b * multTable.getD (bfext o 16 3) 0)
        / odivTable.getD (bfext o 27 3) 0 ∧
      u32 (switchFPLLIDIV f b * multTable.getD (bfext o 16 3) 0)
        / odivTable.getD (bfext o 27 3) 0 ≤ 480000000 := by
    intro b hb1 hb2
    obtain ⟨l, u⟩ := switchFPLLIDIV_bounds f b hb1 hb2
    generalize switchFPLLIDIV f b = x at l u
    generalize multTable.getD (bfext o 16 3) 0 = m at hm
    generalize odivTable.getD (bfext o 27 3) 0 = d at hd
    have hlo : 666666 * 15 ≤ x * m := Nat.mul_le_mul l hm.1
    have hhi : x * m ≤ 20000000 * 24 := Nat.mul_le_mul u hm.2
    have hu : u32 (x * m) = x * m := by
      unfold u32
      apply Nat.mod_eq_of_lt
      omega
    rw [hu]
    constructor
    · rw [Nat.le_div_iff_mul_le hd.1]
      calc 31250 * d ≤ 31250 * 256 := Nat.mul_le_mul_left _ hd.2
        _ ≤ x * m := by omega
    · exact le_trans (Nat.div_le_self _ _) (by omega)
  generalize bfext o 12 3 = c at *
  interval_cases c
  · rw [a0 rfl]; omega
  · rw [a1 rfl]; exact key F_FRC (by decide) (by decide)
  · rw [a2 rfl]; omega
  · rw [a3 rfl]; exact key F_XTAL (by decide) (by decide)
  · rw [a4 rfl]; omega
  · rw [a5 rfl]; omega
  · rw [a6 rfl]; omega
  · rw [a7 rfl]
    generalize odivTable.getD (bfext o 24 3) 0 = d at hd'
    unfold F_FRC
    constructor
    · rw [Nat.le_div_iff_mul_le hd'.1]
      calc 31250 * d ≤ 31250 * 256 := Nat.mul_le_mul_left _ hd'.2
        _ ≤ 8000000 := by omega
    · exact le_trans (Nat.div_le_self _ _) (by omega)

/-! ## The resolver: claims on `SystemCoreClockUpdate` -/

/-- The resolver on the two PLL sources, by the decoded codes. -/
theorem coreClockOf_pll (o f : Nat) (hf : f < 8)
    (hc : bfext o 12 3 = 0b011 ∨ bfext o 12 3 = 0b001) :
    coreClockOf o f =
      u32 ((if bfext o 12 3 = 0b011 then 20000000 else 8000000) / idivTable.getD f 0
          * multTable.getD (bfext o 16 3) 0)
        / odivTable.getD (bfext o 27 3) 0 := by
  obtain ⟨_, _, _, _, a3, _, a1, _⟩ := coreClockOf_cases o f
  rcases hc with h | h
  · rw [a3 h, switchFPLLIDIV_eq _ _ hf, if_pos h]
    rfl
  · rw [a1 h, switchFPLLIDIV_eq _ _ hf, if_neg (by rw [h]; decide)]
    rfl

/-- C1: when the current source `COSC` (OSCCON bits 14..12) is `0b011`
(primary crystal with PLL) or `0b001` (FRC with PLL), for every 3-bit
`FPLLIDIV` code, `SystemCoreClockUpdate` returns `((base / idiv) * mul) / odiv`
in truncating 32-bit arithmetic, with `base` 20,000,000 resp. 8,000,000 and
the three ratios taken from the tables by their codes. -/
theorem SystemCoreClockUpdate_pll (s : Mcu) (hf : s.FPLLIDIV < 8)
    (hc : bfext s.OSCCON 12 3 = 0b011 ∨ bfext s.OSCCON 12 3 = 0b001) :
    (SystemCoreClockUpdate s).1 =
      u32 ((if bfext s.OSCCON 12 3 = 0b011 then 20000000 else 8000000)
            / [1, 2, 3, 4, 5, 6, 10, 12].getD s.FPLLIDIV 0
          * [15, 16, 17, 18, 19, 20, 21, 24].getD (bfext s.OSCCON 16 3) 0)
        / [1, 2, 4, 8, 16, 32, 64, 256].getD (bfext s.OSCCON 27 3) 0 := by
  exact coreClockOf_pll s.OSCCON s.FPLLIDIV hf hc

/-- C1, witness: primary crystal with PLL, input divider code for 2,
multiplier code for 16, output divider code for 4 gives 40,000,000 Hz. -/
theorem SystemCoreClockUpdate_pll_witness :
    cfgPoscPll.FPLLIDIV < 8 ∧ bfext cfgPoscPll.OSCCON 12 3 = 0b011 ∧
      (SystemCoreClockUpdate cfgPoscPll).1 = 40000000 :=
  ⟨by decide, by decide,
    (SystemCoreClockUpdate_pll cfgPoscPll (by decide) (Or.inl (by decide))).trans (by decide)⟩

/-- C2: for the non-PLL sources `SystemCoreClockUpdate` returns
8,000,000 divided by the FRC post-divider ratio for `COSC = 0b111`, 500,000
for `0b110`, 31,250 for `0b101`, 32,768 for `0b100`, 20,000,000 for `0b010`
and 8,000,000 for `0b000`; for the five fixed sources any two states with
that same `COSC` give the same result, whatever their other OSCCON bits and
`FPLLIDIV` are. -/
theorem SystemCoreClockUpdate_nonpll (s : Mcu) :
    (bfext s.OSCCON 12 3 = 0b111 → (SystemCoreClockUpdate s).1 =
      8000000 / [1, 2, 4, 8, 16, 32, 64, 256].getD (bfext s.OSCCON 24 3) 0) ∧
    (bfext s.OSCCON 12 3 = 0b110 → (SystemCoreClockUpdate s).1 = 500000) ∧
    (bfext s.OSCCON 12 3 = 0b101 → (SystemCoreClockUpdate s).1 = 31250) ∧
    (bfext s.OSCCON 12 3 = 0b100 → (SystemCoreClockUpdate s).1 = 32768) ∧
    (bfext s.OSCCON 12 3 = 0b010 → (SystemCoreClockUpdate s).1 = 20000000) ∧
    (bfext s.OSCCON 12 3 = 0b000 → (SystemCoreClockUpdate s).1 = 8000000) ∧
    (∀ t : Mcu, bfext t.OSCCON 12 3 = bfext s.OSCCON 12 3 →
      bfext s.OSCCON 12 3 ∈ [0b110, 0b101, 0b100, 0b010, 0b000] →
      (SystemCoreClockUpdate t).1 = (SystemCoreClockUpdate s).1) := by
  obtain ⟨a7, a6, a5, a4, _, a2, _, a0⟩ := coreClockOf_cases s.OSCCON s.FPLLIDIV
  refine ⟨a7, a6, a5, a4, a2, a0, ?_⟩
  intro t ht hmem
  obtain ⟨_, b6, b5, b4, _, b2, _, b0⟩ := coreClockOf_cases t.OSCCON t.FPLLIDIV
  show coreClockOf t.OSCCON t.FPLLIDIV = coreClockOf s.OSCCON s.FPLLIDIV
  simp only [List.mem_cons, List.mem_singleton, List.not_mem_nil, or_false] at hmem
  rcases hmem with h | h | h | h | h
  · rw [a6 h, b6 (ht.trans h)]
  · rw [a5 h, b5 (ht.trans h)]
  · rw [a4 h, b4 (ht.trans h)]
  · rw [a2 h, b2 (ht.trans h)]
  · rw [a0 h, b0 (ht.trans h)]

/-- C2, witness: one configuration per non-PLL source, with every other
OSCCON bit set and `FPLLIDIV = 0b111`; the fixed sources give the same value
as with the FRC post-divider field changed. -/
theorem SystemCoreClockUpdate_nonpll_witness :
    (SystemCoreClockUpdate (cfgSource 0b111 0b011)).1 = 1000000 ∧
    (SystemCoreClockUpdate (cfgSource 0b110 0b011)).1 = 500000 ∧
    (SystemCoreClockUpdate (cfgSource 0b101 0b011)).1 = 31250 ∧
    (SystemCoreClockUpdate (cfgSource 0b100 0b011)).1 = 32768 ∧
    (SystemCoreClockUpdate (cfgSource 0b010 0b011)).1 = 20000000 ∧
    (SystemCoreClockUpdate (cfgSource 0b000 0b011)).1 = 8000000 ∧
    (SystemCoreClockUpdate (cfgSource 0b110 0b000)).1
      = (SystemCoreClockUpdate (cfgSource 0b110 0b011)).1 :=
  ⟨((SystemCoreClockUpdate_nonpll (cfgSource 0b111 0b011)).1 (by decide)).trans (by decide),
   (SystemCoreClockUpdate_nonpll (cfgSource 0b110 0b011)).2.1 (by decide),
   (SystemCoreClockUpdate_nonpll (cfgSource 0b101 0b011)).2.2.1 (by decide),
   (SystemCoreClockUpdate_nonpll (cfgSource 0b100 0b011)).2.2.2.1 (by decide),
   (SystemCoreClockUpdate_nonpll (cfgSource 0b010 0b011)).2.2.2.2.1 (by decide),
   (SystemCoreClockUpdate_nonpll (cfgSource 0b000 0b011)).2.2.2.2.2.1 (by decide),
   (SystemCoreClockUpdate_nonpll (cfgSource 0b110 0b011)).2.2.2.2.2.2
     (cfgSource 0b110 0b000) (by decide) (by decide)⟩

/-- C3: for every OSCCON value and every `FPLLIDIV` value
`SystemCoreClockUpdate` returns a value strictly greater than 0; the function
is total, so it never fails. -/
theorem SystemCoreClockUpdate_pos (s : Mcu) : 0 < (SystemCoreClockUpdate s).1 := by
  have h := (coreClockOf_bounds s.OSCCON s.FPLLIDIV).1
  show 0 < coreClockOf s.OSCCON s.FPLLIDIV
  omega

/-- C4: after `SystemCoreClockUpdate` the variable `SystemCoreClock` holds
the returned value, the returned value does not depend on what
`SystemCoreClock` held before, and every other part of the state (OSCCON,
`FPLLIDIV` of DEVCFG2, `systick_count`, the core-timer period and callback
slot, and the rest) is as before. -/
theorem SystemCoreClockUpdate_frame (s : Mcu) :
    (SystemCoreClockUpdate s).2.SystemCoreClock = (SystemCoreClockUpdate s).1 ∧
    (∀ v : Nat, (SystemCoreClockUpdate { s with SystemCoreClock := v }).1
      = (SystemCoreClockUpdate s).1) ∧
    (SystemCoreClockUpdate s).2.OSCCON = s.OSCCON ∧
    (SystemCoreClockUpdate s).2.FPLLIDIV = s.FPLLIDIV ∧
    (SystemCoreClockUpdate s).2.systick_count = s.systick_count ∧
    (SystemCoreClockUpdate s).2._coretimer_pr = s._coretimer_pr ∧
    (SystemCoreClockUpdate s).2._coretimer_isrptr = s._coretimer_isrptr ∧
    (SystemCoreClockUpdate s).2
      = { s with SystemCoreClock := (SystemCoreClockUpdate s).1 } :=
  ⟨rfl, fun _ => rfl, rfl, rfl, rfl, rfl, rfl, rfl⟩

/-- C5: `SystemCoreClockUpdate` is idempotent: a second call right after
the first returns the same value and leaves the same state, hence the same
`SystemCoreClock`, as the first call alone. -/
theorem SystemCoreClockUpdate_idempotent (s : Mcu) :
    (SystemCoreClockUpdate (SystemCoreClockUpdate s).2).1 = (SystemCoreClockUpdate s).1 ∧
    (SystemCoreClockUpdate (SystemCoreClockUpdate s).2).2 = (SystemCoreClockUpdate s).2 ∧
    (SystemCoreClockUpdate (SystemCoreClockUpdate s).2).2.SystemCoreClock
      = (SystemCoreClockUpdate s).2.SystemCoreClock :=
  ⟨rfl, rfl, rfl⟩

/-! ### Exactness of the divide-multiply-divide chain -/

theorem chain_exact_iff (b i m o : Nat) (hi : 0 < i) (hm : 0 < m) :
    b / i * m / o * (i * o) = b * m ↔ i ∣ b ∧ o ∣ b / i * m := by
  constructor
  · intro h
    have h1 : b / i * m / o * o ≤ b / i * m := Nat.div_mul_le_self _ _
    have h2 : b / i * i ≤ b := Nat.div_mul_le_self _ _
    have e : b / i * m / o * (i * o) = b / i * m / o * o * i := by ring
    have h3 : b / i * m / o * o * i ≤ b / i * m * i := Nat.mul_le_mul_right _ h1
    have h4 : b / i * m * i = b / i * i * m := by ring
    have h5 : b / i * i * m ≤ b * m := Nat.mul_le_mul_right _ h2
    have h6 : b / i * i * m = b * m := by omega
    have h7 : b / i * m / o * o * i = b / i * m * i := by omega
    have h8 : b / i * i = b := Nat.eq_of_mul_eq_mul_right hm h6
    have h9 : b / i * m / o * o = b / i * m := Nat.eq_of_mul_eq_mul_right hi h7
    exact ⟨Dvd.intro_left _ h8, Dvd.intro_left _ h9⟩
  · rintro ⟨h1, h2⟩
    have e1 : b / i * i = b := Nat.div_mul_cancel h1
    have e2 : b / i * m / o * o = b / i * m := Nat.div_mul_cancel h2
    calc b / i * m / o * (i * o) = b / i * m / o * o * i := by ring
      _ = b / i * m * i := by rw [e2]
      _ = b / i * i * m := by ring
      _ = b * m := by rw [e1]

theorem chain_rat_iff (b i m o : Nat) (hi : 0 < i) (ho : 0 < o) :
    ((b / i * m / o : Nat) : ℚ) = (b : ℚ) / i * m / o ↔ b / i * m / o * (i * o) = b * m := by
  have hi' : (i : ℚ) ≠ 0 := by exact_mod_cast hi.ne'
  have ho' : (o : ℚ) ≠ 0 := by exact_mod_cast ho.ne'
  rw [eq_div_iff ho', div_mul_eq_mul_div, eq_div_iff hi']
  constructor
  · intro h
    have : ((b / i * m / o * (i * o) : Nat) : ℚ) = ((b * m : Nat) : ℚ) := by
      push_cast
      linarith
    exact_mod_cast this
  · intro h
    have : ((b / i * m / o * (i * o) : Nat) : ℚ) = ((b * m : Nat) : ℚ) := by rw [h]
    push_cast at this
    linarith

/-- C6, as stated, fails: with the primary crystal and PLL, input divider
code `0b010` (divide by 3), multiplier 15 and output divider 1 the routine
returns 99,999,990, not the exact 20,000,000 / 3 * 15 / 1 = 100,000,000. -/
theorem SystemCoreClockUpdate_pll_truncates :
    (SystemCoreClockUpdate cfgPoscPllDiv3).1 = 99999990 ∧
    (((SystemCoreClockUpdate cfgPoscPllDiv3).1 : Nat) : ℚ) ≠ (20000000 : ℚ) / 3 * 15 / 1 := by
  have h : (SystemCoreClockUpdate cfgPoscPllDiv3).1 = 99999990 := by decide
  refine ⟨h, ?_⟩
  rw [h]
  norm_num

/-- C6, amended: for both PLL sources and all codes the routine returns
the truncating chain `((base / idiv) * mul) / odiv` over the naturals (no
32-bit wrap), and this equals the exact rational `base / idiv * mul / odiv`
exactly when `idiv` divides `base` and `odiv` divides `(base / idiv) * mul`. -/
theorem SystemCoreClockUpdate_pll_exact_iff (s : Mcu) (hf : s.FPLLIDIV < 8)
    (hc : bfext s.OSCCON 12 3 = 0b011 ∨ bfext s.OSCCON 12 3 = 0b001) :
    (SystemCoreClockUpdate s).1 =
      (if bfext s.OSCCON 12 3 = 0b011 then 20000000 else 8000000)
            / [1, 2, 3, 4, 5, 6, 10, 12].getD s.FPLLIDIV 0
          * [15, 16, 17, 18, 19, 20, 21, 24].getD (bfext s.OSCCON 16 3) 0
        / [1, 2, 4, 8, 16, 32, 64, 256].getD (bfext s.OSCCON 27 3) 0 ∧
    ((((SystemCoreClockUpdate s).1 : Nat) : ℚ) =
      ((if bfext s.OSCCON 12 3 = 0b011 then 20000000 else 8000000 : Nat) : ℚ)
            / ([1, 2, 3, 4, 5, 6, 10, 12].getD s.FPLLIDIV 0 : Nat)
          * ([15, 16, 17, 18, 19, 20, 21, 24].getD (bfext s.OSCCON 16 3) 0 : Nat)
        / ([1, 2, 4, 8, 16, 32, 64, 256].getD (bfext s.OSCCON 27 3) 0 : Nat) ↔
      [1, 2, 3, 4, 5, 6, 10, 12].getD s.FPLLIDIV 0
          ∣ (if bfext s.OSCCON 12 3 = 0b011 then 20000000 else 8000000) ∧
      [1, 2, 4, 8, 16, 32, 64, 256].getD (bfext s.OSCCON 27 3) 0
          ∣ (if bfext s.OSCCON 12 3 = 0b011 then 20000000 else 8000000)
              / [1, 2, 3, 4, 5, 6, 10, 12].getD s.FPLLIDIV 0
            * [15, 16, 17, 18, 19, 20, 21, 24].getD (bfext s.OSCCON 16 3) 0) := by
  have hi := idivTable_bounds _ hf
  have hm := multTable_bounds _ (bfext3_lt s.OSCCON 16)
  have hd := odivTable_bounds _ (bfext3_lt s.OSCCON 27)
  have hb : (if bfext s.OSCCON 12 3 = 0b011 then 20000000 else 8000000) ≤ 20000000 := by
    split_ifs <;> omega
  have h : (SystemCoreClockUpdate s).1 = _ := coreClockOf_pll s.OSCCON s.FPLLIDIV hf hc
  rw [u32_pll_product _ _ _ hb hm.2] at h
  change (SystemCoreClockUpdate s).1 = _ / idivTable.getD s.FPLLIDIV 0
      * multTable.getD (bfext s.OSCCON 16 3) 0 / odivTable.getD (bfext s.OSCCON 27 3) 0 ∧
    ((((SystemCoreClockUpdate s).1 : Nat) : ℚ) = _ / (idivTable.getD s.FPLLIDIV 0 : Nat)
      * (multTable.getD (bfext s.OSCCON 16 3) 0 : Nat)
      / (odivTable.getD (bfext s.OSCCON 27 3) 0 : Nat) ↔
      idivTable.getD s.FPLLIDIV 0 ∣ _ ∧ odivTable.getD (bfext s.OSCCON 27 3) 0 ∣
        _ / idivTable.getD s.FPLLIDIV 0 * multTable.getD (bfext s.OSCCON 16 3) 0)
  refine ⟨h, ?_⟩
  rw [h, chain_rat_iff _ _ _ _ hi.1 hd.1, chain_exact_iff _ _ _ _ hi.1 (by omega)]

/-- C6, witness of the amended statement: in the 40 MHz configuration 2
divides 20,000,000 and 4 divides 10,000,000 * 16, and the value returned is
the exact 20,000,000 / 2 * 16 / 4. -/
theorem SystemCoreClockUpdate_pll_exact_iff_witness :
    cfgPoscPll.FPLLIDIV < 8 ∧ bfext cfgPoscPll.OSCCON 12 3 = 0b011 ∧
    (SystemCoreClockUpdate cfgPoscPll).1 = 40000000 ∧
    (((SystemCoreClockUpdate cfgPoscPll).1 : Nat) : ℚ) = (20000000 : ℚ) / 2 * 16 / 4 := by
  have h := SystemCoreClockUpdate_pll_exact_iff cfgPoscPll (by decide) (Or.inl (by decide))
  have e := h.2.mpr ⟨by decide, by decide⟩
  have e1 : (if bfext cfgPoscPll.OSCCON 12 3 = 0b011 then 20000000 else 8000000 : Nat)
      = 20000000 := by decide
  have e2 : [1, 2, 3, 4, 5, 6, 10, 12].getD cfgPoscPll.FPLLIDIV 0 = 2 := by decide
  have e3 : [15, 16, 17, 18, 19, 20, 21, 24].getD (bfext cfgPoscPll.OSCCON 16 3) 0 = 16 := by
    decide
  have e4 : [1, 2, 4, 8, 16, 32, 64, 256].getD (bfext cfgPoscPll.OSCCON 27 3) 0 = 4 := by
    decide
  rw [e1, e2, e3, e4] at e
  refine ⟨by decide, by decide, h.1.trans (by decide), ?_⟩
  rw [e]
  norm_num

/-! ## The oscillator switch: bit fields of OSCCON -/

theorem bfins_NOSC (o v : Nat) :
    bfext (bfins o 8 3 v) 8 3 = v % 8 ∧ bfext (bfins o 8 3 v) 0 1 = bfext o 0 1 ∧
    bfext (bfins o 8 3 v) 12 3 = bfext o 12 3 ∧ bfext (bfins o 8 3 v) 16 3 = bfext o 16 3 ∧
    bfext (bfins o 8 3 v) 24 3 = bfext o 24 3 ∧ bfext (bfins o 8 3 v) 27 3 = bfext o 27 3 := by
  simp only [bfins, bfext]
  norm_num
  refine ⟨?_, ?_, ?_, ?_, ?_, ?_⟩ <;> omega

theorem bfins_OSWEN (o v : Nat) :
    bfext (bfins o 0 1 v) 0 1 = v % 2 ∧ bfext (bfins o 0 1 v) 8 3 = bfext o 8 3 ∧
    bfext (bfins o 0 1 v) 12 3 = bfext o 12 3 ∧ bfext (bfins o 0 1 v) 16 3 = bfext o 16 3 ∧
    bfext (bfins o 0 1 v) 24 3 = bfext o 24 3 ∧ bfext (bfins o 0 1 v) 27 3 = bfext o 27 3 := by
  simp only [bfins, bfext]
  norm_num
  refine ⟨?_, ?_, ?_, ?_, ?_, ?_⟩ <;> omega

theorem bfins_COSC (o v : Nat) :
    bfext (bfins o 12 3 v) 12 3 = v % 8 ∧ bfext (bfins o 12 3 v) 0 1 = bfext o 0 1 ∧
    bfext (bfins o 12 3 v) 8 3 = bfext o 8 3 ∧ bfext (bfins o 12 3 v) 16 3 = bfext o 16 3 ∧
    bfext (bfins o 12 3 v) 24 3 = bfext o 24 3 ∧ bfext (bfins o 12 3 v) 27 3 = bfext o 27 3 := by
  simp only [bfins, bfext]
  norm_num
  refine ⟨?_, ?_, ?_, ?_, ?_, ?_⟩ <;> omega

/-- What the loop body leaves in OSCCON: `NOSC` holds the low three bits of
`nosc`, `OSWEN` is 1, the fields the resolver reads are untouched. -/
theorem request_fields (o nosc : Nat) :
    bfext (bfins (bfins o 8 3 nosc) 0 1 1) 0 1 = 1 ∧
    bfext (bfins (bfins o 8 3 nosc) 0 1 1) 8 3 = nosc % 8 ∧
    bfext (bfins (bfins o 8 3 nosc) 0 1 1) 12 3 = bfext o 12 3 ∧
    bfext (bfins (bfins o 8 3 nosc) 0 1 1) 16 3 = bfext o 16 3 ∧
    bfext (bfins (bfins o 8 3 nosc) 0 1 1) 24 3 = bfext o 24 3 ∧
    bfext (bfins (bfins o 8 3 nosc) 0 1 1) 27 3 = bfext o 27 3 := by
  obtain ⟨a1, a2, a3, a4, a5, a6⟩ := bfins_OSWEN (bfins o 8 3 nosc) 1
  obtain ⟨b1, b2, b3, b4, b5, b6⟩ := bfins_NOSC o nosc
  exact ⟨a1, a2.trans b1, a3.trans b3, a4.trans b4, a5.trans b5, a6.trans b6⟩

/-- What a completed switch leaves in OSCCON. -/
theorem completeSwitch_fields (o : Nat) :
    bfext (completeSwitch o) 0 1 = 0 ∧
    bfext (completeSwitch o) 12 3 = bfext o 8 3 ∧
    bfext (completeSwitch o) 16 3 = bfext o 16 3 ∧
    bfext (completeSwitch o) 24 3 = bfext o 24 3 ∧
    bfext (completeSwitch o) 27 3 = bfext o 27 3 := by
  unfold completeSwitch
  obtain ⟨a1, _, a3, a4, a5, a6⟩ := bfins_OSWEN (bfins o 12 3 (bfext o 8 3)) 0
  obtain ⟨b1, _, _, b4, b5, b6⟩ := bfins_COSC o (bfext o 8 3)
  have h8 : bfext o 8 3 % 8 = bfext o 8 3 := Nat.mod_eq_of_lt (bfext3_lt o 8)
  exact ⟨a1, a3.trans (b1.trans h8), a4.trans b4, a5.trans b5, a6.trans b6⟩

/-! ## The oscillator switch: the loop -/

theorem switchPass_state (nosc : Nat) (h : Nat → Nat) (s : Mcu) :
    (switchPass nosc h s).1 =
      { s with SYSKEY := 0x33333333, OSCCON := h (bfins (bfins s.OSCCON 8 3 nosc) 0 1 1) } :=
  rfl

theorem switchPass_read (nosc : Nat) (h : Nat → Nat) (s : Mcu) :
    (switchPass nosc h s).2.2 = bfext (switchPass nosc h s).1.OSCCON 0 1 :=
  rfl

theorem switchPass_trace (nosc : Nat) (h : Nat → Nat) (s : Mcu) :
    (switchPass nosc h s).2.1 =
      [⟨.writeSYSKEY 0xAA996655, s.IE⟩, ⟨.writeSYSKEY 0x556699AA, s.IE⟩,
       ⟨.writeNOSC (nosc % 2 ^ 3), s.IE⟩, ⟨.writeOSWEN 1, s.IE⟩,
       ⟨.writeSYSKEY 0x33333333, s.IE⟩,
       ⟨.readOSWEN (bfext (switchPass nosc h s).1.OSCCON 0 1), s.IE⟩] :=
  rfl

theorem oswenAtPoll_zero (nosc : Nat) (hw : Nat → Nat → Nat) (s : Mcu) :
    oswenAtPoll nosc hw s 0 = (switchPass nosc (hw 0) s).2.2 :=
  rfl

theorem oswenAtPoll_succ (nosc : Nat) (hw : Nat → Nat → Nat) (s : Mcu) (j : Nat) :
    oswenAtPoll nosc hw s (j + 1)
      = oswenAtPoll nosc (fun i => hw (i + 1)) (switchPass nosc (hw 0) s).1 j :=
  rfl

theorem switchLoop_succ (nosc fuel : Nat) (hw : Nat → Nat → Nat) (s : Mcu) (tr : List Step) :
    switchLoop nosc (fuel + 1) hw s tr =
      if (switchPass nosc (hw 0) s).2.2 ≠ 0 then
        switchLoop nosc fuel (fun j => hw (j + 1)) (switchPass nosc (hw 0) s).1
          (tr ++ (switchPass nosc (hw 0) s).2.1)
      else some ((switchPass nosc (hw 0) s).1, tr ++ (switchPass nosc (hw 0) s).2.1) :=
  rfl

/-- The loop ends at the first pass whose poll reads 0, whatever fuel beyond
that is given. -/
theorem switchLoop_ends (nosc : Nat) : ∀ (k : Nat) (hw : Nat → Nat → Nat) (s : Mcu)
    (tr : List Step) (fuel : Nat), k < fuel →
    (∀ j, j < k → oswenAtPoll nosc hw s j ≠ 0) → oswenAtPoll nosc hw s k = 0 →
    switchLoop nosc fuel hw s tr
      = some (stateAtPoll nosc hw s k, tr ++ traceAtPoll nosc hw s k) := by
  intro k
  induction k with
  | zero =>
    intro hw s tr fuel hfuel _ h0
    obtain ⟨n, rfl⟩ : ∃ n, fuel = n + 1 := ⟨fuel - 1, by omega⟩
    rw [switchLoop_succ, if_neg (by rw [oswenAtPoll_zero] at h0; simp [h0])]
    rfl
  | succ k ih =>
    intro hw s tr fuel hfuel h1 h0
    obtain ⟨n, rfl⟩ : ∃ n, fuel = n + 1 := ⟨fuel - 1, by omega⟩
    have hfirst : (switchPass nosc (hw 0) s).2.2 ≠ 0 := by
      have := h1 0 (by omega)
      rwa [oswenAtPoll_zero] at this
    rw [switchLoop_succ, if_pos hfirst,
      ih (fun j => hw (j + 1)) _ _ n (by omega)
        (fun j hj => by have := h1 (j + 1) (by omega); rwa [oswenAtPoll_succ] at this)
        (by rwa [oswenAtPoll_succ] at h0)]
    simp [stateAtPoll, traceAtPoll, List.append_assoc]

/-- While every poll made so far has read a non-zero value the loop has not
ended. -/
theorem switchLoop_pending (nosc : Nat) : ∀ (fuel : Nat) (hw : Nat → Nat → Nat) (s : Mcu)
    (tr : List Step), (∀ j, j < fuel → oswenAtPoll nosc hw s j ≠ 0) →
    switchLoop nosc fuel hw s tr = none := by
  intro fuel
  induction fuel with
  | zero => intros; rfl
  | succ n ih =>
    intro hw s tr h1
    have hfirst : (switchPass nosc (hw 0) s).2.2 ≠ 0 := by
      have := h1 0 (by omega)
      rwa [oswenAtPoll_zero] at this
    rw [switchLoop_succ, if_pos hfirst]
    exact ih _ _ _ (fun j hj => by
      have := h1 (j + 1) (by omega); rwa [oswenAtPoll_succ] at this)

/-- The loop changes OSCCON and SYSKEY only. -/
theorem stateAtPoll_frame (nosc : Nat) : ∀ (k : Nat) (hw : Nat → Nat → Nat) (s : Mcu),
    stateAtPoll nosc hw s k =
      { s with SYSKEY := 0x33333333, OSCCON := (stateAtPoll nosc hw s k).OSCCON } := by
  intro k
  induction k with
  | zero => intro hw s; rfl
  | succ k ih =>
    intro hw s
    show stateAtPoll nosc (fun i => hw (i + 1)) (switchPass nosc (hw 0) s).1 k = _
    rw [ih]
    rfl

theorem stateAtPoll_FPLLIDIV (nosc k : Nat) (hw : Nat → Nat → Nat) (s : Mcu) :
    (stateAtPoll nosc hw s k).FPLLIDIV = s.FPLLIDIV := by
  rw [stateAtPoll_frame]

/-- Every access of the loop is made with the interrupt enable the loop was
entered with. -/
theorem traceAtPoll_ie (nosc : Nat) : ∀ (k : Nat) (hw : Nat → Nat → Nat) (s : Mcu),
    ∀ st ∈ traceAtPoll nosc hw s k, st.ie = s.IE := by
  intro k
  induction k with
  | zero =>
    intro hw s st hst
    simp only [traceAtPoll, switchPass_trace, List.mem_cons, List.mem_singleton,
      List.not_mem_nil, or_false] at hst
    rcases hst with h | h | h | h | h | h <;> rw [h]
  | succ k ih =>
    intro hw s st hst
    simp only [traceAtPoll, List.mem_append] at hst
    rcases hst with h | h
    · simp only [switchPass_trace, List.mem_cons, List.mem_singleton,
        List.not_mem_nil, or_false] at h
      rcases h with h | h | h | h | h | h <;> rw [h]
    · exact (ih (fun i => hw (i + 1)) (switchPass nosc (hw 0) s).1 st h).trans rfl

/-- The values the polls of passes 0 to `k` read. -/
theorem pollReads_traceAtPoll (nosc : Nat) : ∀ (k : Nat) (hw : Nat → Nat → Nat) (s : Mcu),
    pollReads (traceAtPoll nosc hw s k)
      = (List.range (k + 1)).map (oswenAtPoll nosc hw s) := by
  intro k
  induction k with
  | zero => intro hw s; rfl
  | succ k ih =>
    intro hw s
    rw [List.range_succ_eq_map, List.map_cons, List.map_map]
    show oswenAtPoll nosc hw s 0 :: pollReads (traceAtPoll nosc (fun i => hw (i + 1))
      (switchPass nosc (hw 0) s).1 k) = _
    rw [ih]
    rfl

/-! ## The oscillator switch: the whole routine -/

theorem stateAtPoll_OSCCON_congr (nosc : Nat) : ∀ (k : Nat) (hw : Nat → Nat → Nat)
    (s t : Mcu), s.OSCCON = t.OSCCON →
    (stateAtPoll nosc hw s k).OSCCON = (stateAtPoll nosc hw t k).OSCCON := by
  intro k
  induction k with
  | zero =>
    intro hw s t h
    simp only [stateAtPoll, switchPass_state, h]
  | succ k ih =>
    intro hw s t h
    show (stateAtPoll nosc (fun i => hw (i + 1)) (switchPass nosc (hw 0) s).1 k).OSCCON
      = (stateAtPoll nosc (fun i => hw (i + 1)) (switchPass nosc (hw 0) t).1 k).OSCCON
    apply ih
    simp only [switchPass_state, h]

theorem oswenAtPoll_congr (nosc k : Nat) (hw : Nat → Nat → Nat) (s t : Mcu)
    (h : s.OSCCON = t.OSCCON) : oswenAtPoll nosc hw s k = oswenAtPoll nosc hw t k := by
  unfold oswenAtPoll
  rw [stateAtPoll_OSCCON_congr nosc k hw s t h]

theorem entry_OSCCON (tc : Toolchain) (s : Mcu) :
    (di tc (__builtin_get_isr_state tc s).2).OSCCON = s.OSCCON := by
  cases tc <;> rfl

theorem entry_FPLLIDIV (tc : Toolchain) (s : Mcu) :
    (di tc (__builtin_get_isr_state tc s).2).FPLLIDIV = s.FPLLIDIV := by
  cases tc <;> rfl

/-- The interrupt enable during the loop: on under XC32, off under C32,
whatever it was on entry. -/
theorem entry_IE (tc : Toolchain) (s : Mcu) :
    (di tc (__builtin_get_isr_state tc s).2).IE = (match tc with | .XC32 => true | .C32 => false) := by
  cases tc <;> rfl

/-- The routine returns as soon as a poll reads 0: the value is the
resolver's for the OSCCON then, the interrupt enable is the one of the
entry, and the accesses are those of the passes made. -/
theorem SystemCoreClockSwitch_ends (tc : Toolchain) (hw : Nat → Nat → Nat)
    (fuel nosc k : Nat) (s : Mcu) (hk : k < fuel)
    (h1 : ∀ j, j < k → oswenAtPoll nosc hw s j ≠ 0) (h0 : oswenAtPoll nosc hw s k = 0) :
    SystemCoreClockSwitch tc hw fuel nosc s = some
      (coreClockOf (stateAtPoll nosc hw (di tc (__builtin_get_isr_state tc s).2) k).OSCCON s.FPLLIDIV,
       { stateAtPoll nosc hw (di tc (__builtin_get_isr_state tc s).2) k with
         IE := s.IE,
         SystemCoreClock :=
           coreClockOf (stateAtPoll nosc hw (di tc (__builtin_get_isr_state tc s).2) k).OSCCON
             s.FPLLIDIV },
       traceAtPoll nosc hw (di tc (__builtin_get_isr_state tc s).2) k) := by
  have e := entry_OSCCON tc s
  have hl := switchLoop_ends nosc k hw (di tc (__builtin_get_isr_state tc s).2) [] fuel hk
    (fun j hj => by rw [oswenAtPoll_congr nosc j hw _ s e]; exact h1 j hj)
    (by rw [oswenAtPoll_congr nosc k hw _ s e]; exact h0)
  have hf := stateAtPoll_FPLLIDIV nosc k hw (di tc (__builtin_get_isr_state tc s).2)
  rw [entry_FPLLIDIV] at hf
  unfold SystemCoreClockSwitch
  simp only [hl, List.nil_append]
  generalize stateAtPoll nosc hw (di tc (__builtin_get_isr_state tc s).2) k = s3 at hf
  rw [← hf]
  cases tc <;> rfl

/-- Every register access of the loop is made with the interrupt enable
that `di()` left: on under XC32, off under C32. -/
theorem switch_trace_ie (tc : Toolchain) (hw : Nat → Nat → Nat) (nosc k : Nat) (s : Mcu) :
    ∀ st ∈ traceAtPoll nosc hw (di tc (__builtin_get_isr_state tc s).2) k,
      st.ie = (match tc with | .XC32 => true | .C32 => false) := by
  intro st hst
  rw [traceAtPoll_ie nosc k hw _ st hst, entry_IE]

/-- The routine has not returned while every poll made has read non-zero. -/
theorem SystemCoreClockSwitch_pending (tc : Toolchain) (hw : Nat → Nat → Nat)
    (fuel nosc : Nat) (s : Mcu) (h1 : ∀ j, j < fuel → oswenAtPoll nosc hw s j ≠ 0) :
    SystemCoreClockSwitch tc hw fuel nosc s = none := by
  have e := entry_OSCCON tc s
  have hl := switchLoop_pending nosc fuel hw (di tc (__builtin_get_isr_state tc s).2) []
    (fun j hj => by rw [oswenAtPoll_congr nosc j hw _ s e]; exact h1 j hj)
  unfold SystemCoreClockSwitch
  simp only [hl]

theorem hwCompletesAt_shift (k : Nat) :
    (fun i => hwCompletesAt (k + 1) (i + 1)) = hwCompletesAt k := by
  funext i o
  simp [hwCompletesAt]

/-- On hardware that completes the switch at pass `k`: the polls before
read 1, the poll of pass `k` reads 0 and finds `COSC` equal to the requested
source and the other fields the resolver reads unchanged. -/
theorem completes_fields (nosc : Nat) : ∀ (k : Nat) (s : Mcu),
    (∀ j, j < k → oswenAtPoll nosc (hwCompletesAt k) s j = 1) ∧
    oswenAtPoll nosc (hwCompletesAt k) s k = 0 ∧
    bfext (stateAtPoll nosc (hwCompletesAt k) s k).OSCCON 12 3 = nosc % 8 ∧
    bfext (stateAtPoll nosc (hwCompletesAt k) s k).OSCCON 16 3 = bfext s.OSCCON 16 3 ∧
    bfext (stateAtPoll nosc (hwCompletesAt k) s k).OSCCON 24 3 = bfext s.OSCCON 24 3 ∧
    bfext (stateAtPoll nosc (hwCompletesAt k) s k).OSCCON 27 3 = bfext s.OSCCON 27 3 := by
  intro k
  induction k with
  | zero =>
    intro s
    obtain ⟨_, r8, _, r16, r24, r27⟩ := request_fields s.OSCCON nosc
    obtain ⟨c0, c12, c16, c24, c27⟩ :=
      completeSwitch_fields (bfins (bfins s.OSCCON 8 3 nosc) 0 1 1)
    have e : (stateAtPoll nosc (hwCompletesAt 0) s 0).OSCCON
        = completeSwitch (bfins (bfins s.OSCCON 8 3 nosc) 0 1 1) := rfl
    refine ⟨fun j hj => absurd hj (Nat.not_lt_zero j), ?_, ?_, ?_, ?_, ?_⟩
    · show bfext (stateAtPoll nosc (hwCompletesAt 0) s 0).OSCCON 0 1 = 0
      rw [e]; exact c0
    · rw [e]; exact c12.trans r8
    · rw [e]; exact c16.trans r16
    · rw [e]; exact c24.trans r24
    · rw [e]; exact c27.trans r27
  | succ k ih =>
    intro s
    obtain ⟨r0, _, _, r16, r24, r27⟩ := request_fields s.OSCCON nosc
    have e1 : (switchPass nosc (hwCompletesAt (k + 1) 0) s).1.OSCCON
        = bfins (bfins s.OSCCON 8 3 nosc) 0 1 1 := by
      simp [switchPass_state, hwCompletesAt]
    have es : ∀ j, stateAtPoll nosc (hwCompletesAt (k + 1)) s (j + 1)
        = stateAtPoll nosc (hwCompletesAt k)
            (switchPass nosc (hwCompletesAt (k + 1) 0) s).1 j := by
      intro j
      show stateAtPoll nosc (fun i => hwCompletesAt (k + 1) (i + 1)) _ j = _
      rw [hwCompletesAt_shift]
    have eo : ∀ j, oswenAtPoll nosc (hwCompletesAt (k + 1)) s (j + 1)
        = oswenAtPoll nosc (hwCompletesAt k)
            (switchPass nosc (hwCompletesAt (k + 1) 0) s).1 j := by
      intro j
      unfold oswenAtPoll
      rw [es]
    obtain ⟨i1, i0, i12, i16, i24, i27⟩ :=
      ih (switchPass nosc (hwCompletesAt (k + 1) 0) s).1
    rw [e1] at i16 i24 i27
    refine ⟨?_, ?_, ?_, ?_, ?_, ?_⟩
    · intro j hj
      cases j with
      | zero =>
        show bfext (switchPass nosc (hwCompletesAt (k + 1) 0) s).1.OSCCON 0 1 = 1
        rw [e1]; exact r0
      | succ j => rw [eo]; exact i1 j (by omega)
    · rw [eo]; exact i0
    · rw [es]; exact i12
    · rw [es]; exact i16.trans r16
    · rw [es]; exact i24.trans r24
    · rw [es]; exact i27.trans r27

/-- On hardware that never carries out the switch every poll reads 1. -/
theorem oswenAtPoll_hwStuck (nosc : Nat) : ∀ (j : Nat) (s : Mcu),
    oswenAtPoll nosc hwStuck s j = 1 := by
  intro j
  induction j with
  | zero =>
    intro s
    exact (request_fields s.OSCCON nosc).1
  | succ j ih =>
    intro s
    exact ih _

/-- A switch to source `c` on hardware that completes it at pass `k`
returns what the resolver computes for the configuration with `COSC = c`. -/
theorem switch_yields (tc : Toolchain) (k fuel c : Nat) (s : Mcu) (hc : c < 8)
    (hk : k < fuel) :
    SwitchYields (SystemCoreClockSwitch tc (hwCompletesAt k) fuel c s) (c <<< 12) c s := by
  have e := entry_OSCCON tc s
  obtain ⟨i1, i0, i12, i16, i24, i27⟩ := completes_fields c k (di tc (__builtin_get_isr_state tc s).2)
  rw [e] at i16 i24 i27
  rw [Nat.mod_eq_of_lt hc] at i12
  have h := SystemCoreClockSwitch_ends tc (hwCompletesAt k) fuel c k s hk
    (fun j hj => by rw [← oswenAtPoll_congr c j _ _ s e, i1 j hj]; decide)
    (by rw [← oswenAtPoll_congr c k _ _ s e, i0])
  obtain ⟨b12, _, _, b16, b24, b27⟩ := bfins_COSC s.OSCCON c
  rw [Nat.mod_eq_of_lt hc] at b12
  refine ⟨_, _, _, h, rfl, ?_, ?_⟩
  · exact coreClockOf_congr _ _ _ (i12.trans b12.symm) (i16.trans b16.symm)
      (i24.trans b24.symm) (i27.trans b27.symm)
  · show (stateAtPoll c (hwCompletesAt k) (di tc (__builtin_get_isr_state tc s).2) k).OSCCON
      &&& CLKCOSC_FRCDIV = c <<< 12
    rw [show CLKCOSC_FRCDIV = 7 <<< 12 from rfl, and_mask3, i12]

/-! ## The oscillator switch: claims on `SystemCoreClockSwitch` -/

/-- C7: round trip of switch and resolve. On hardware that completes a
requested switch (at any pass `k`) by copying `NOSC` into `COSC` and clearing
`OSWEN`, leaving the rest of OSCCON and DEVCFG2 alone, `SystemCoreClockSwitch(c)`
returns for every selector `c` in 0..7, and leaves in `SystemCoreClock`, the
value `SystemCoreClockUpdate` computes for the configuration with current
source `c`; each named macro does so for the `CLKCOSC_*` source of its name. -/
theorem SystemCoreClockSwitch_roundtrip (tc : Toolchain) (k fuel : Nat) (s : Mcu)
    (hk : k < fuel) :
    (∀ c, c < 8 →
      SwitchYields (SystemCoreClockSwitch tc (hwCompletesAt k) fuel c s) (c <<< 12) c s) ∧
    SwitchYields (SystemCoreClockFRC tc (hwCompletesAt k) fuel s) CLKCOSC_FRC 0b000 s ∧
    SwitchYields (SystemCoreClockFRCPLL tc (hwCompletesAt k) fuel s) CLKCOSC_FRCPLL 0b001 s ∧
    SwitchYields (SystemCoreClockPOSC tc (hwCompletesAt k) fuel s) CLKCOSC_POSC 0b010 s ∧
    SwitchYields (SystemCoreClockPOSCPLL tc (hwCompletesAt k) fuel s) CLKCOSC_POSCPLL 0b011 s ∧
    SwitchYields (SystemCoreClockSOSC tc (hwCompletesAt k) fuel s) CLKCOSC_SOSC 0b100 s ∧
    SwitchYields (SystemCoreClockLPRC tc (hwCompletesAt k) fuel s) CLKCOSC_LPRC 0b101 s ∧
    SwitchYields (SystemCoreClockFRC16 tc (hwCompletesAt k) fuel s) CLKCOSC_FRC16 0b110 s ∧
    SwitchYields (SystemCoreClockFRCDIV tc (hwCompletesAt k) fuel s) CLKCOSC_FRCDIV 0b111 s :=
  ⟨fun c hc => switch_yields tc k fuel c s hc hk,
   switch_yields tc k fuel 0b000 s (by decide) hk,
   switch_yields tc k fuel 0b001 s (by decide) hk,
   switch_yields tc k fuel 0b010 s (by decide) hk,
   switch_yields tc k fuel 0b011 s (by decide) hk,
   switch_yields tc k fuel 0b100 s (by decide) hk,
   switch_yields tc k fuel 0b101 s (by decide) hk,
   switch_yields tc k fuel 0b110 s (by decide) hk,
   switch_yields tc k fuel 0b111 s (by decide) hk⟩

/-- C7, witness: from the 40 MHz PLL configuration, on hardware that
completes the switch at the second poll, `SystemCoreClockLPRC()` returns
31,250, the resolver's value for the low-power RC source. -/
theorem SystemCoreClockSwitch_roundtrip_witness :
    1 < 3 ∧
    SwitchYields (SystemCoreClockLPRC .XC32 (hwCompletesAt 1) 3 cfgPoscPll)
      CLKCOSC_LPRC 0b101 cfgPoscPll ∧
    (SystemCoreClockUpdate { cfgPoscPll with OSCCON := bfins cfgPoscPll.OSCCON 12 3 0b101 }).1
      = 31250 :=
  ⟨by decide,
   (SystemCoreClockSwitch_roundtrip .XC32 1 3 cfgPoscPll (by decide)).2.2.2.2.2.2.1,
   by decide⟩

/-- C8, the code at a failing input: built with XC32, where the header
defines `di()` as `__builtin_enable_interrupts();`, every register access of
the unlock/write/relock sequence is made with the global interrupt enable
on, whether interrupts were enabled on entry or not. The same call built
with C32, where `di()` is `INTDisableInterrupts()`, makes them with the
enable off. -/
theorem SystemCoreClockSwitch_XC32_interrupts_enabled :
    (SystemCoreClockSwitch .XC32 (hwCompletesAt 0) 1 0b011 { powerUp with IE := true }).map
        (fun r => r.2.2)
      = some [⟨.writeSYSKEY 0xAA996655, true⟩, ⟨.writeSYSKEY 0x556699AA, true⟩,
              ⟨.writeNOSC 0b011, true⟩, ⟨.writeOSWEN 1, true⟩,
              ⟨.writeSYSKEY 0x33333333, true⟩, ⟨.readOSWEN 0, true⟩] ∧
    (SystemCoreClockSwitch .XC32 (hwCompletesAt 0) 1 0b011 { powerUp with IE := false }).map
        (fun r => r.2.2)
      = some [⟨.writeSYSKEY 0xAA996655, true⟩, ⟨.writeSYSKEY 0x556699AA, true⟩,
              ⟨.writeNOSC 0b011, true⟩, ⟨.writeOSWEN 1, true⟩,
              ⟨.writeSYSKEY 0x33333333, true⟩, ⟨.readOSWEN 0, true⟩] ∧
    (SystemCoreClockSwitch .C32 (hwCompletesAt 0) 1 0b011 { powerUp with IE := true }).map
        (fun r => r.2.2)
      = some [⟨.writeSYSKEY 0xAA996655, false⟩, ⟨.writeSYSKEY 0x556699AA, false⟩,
              ⟨.writeNOSC 0b011, false⟩, ⟨.writeOSWEN 1, false⟩,
              ⟨.writeSYSKEY 0x33333333, false⟩, ⟨.readOSWEN 0, false⟩] := by
  refine ⟨?_, ?_, ?_⟩ <;> decide

/-- C10: `SystemCoreClockSwitch` polls `OSWEN` until it reads 0. When the
first poll to read 0 is the `k`-th (`k ≥ 1`, every earlier poll reading 1),
the routine returns once it is allowed `k` passes, having made exactly `k`
polls, the last of which read 0 and all others 1, and it has not returned
within fewer than `k` passes; when every poll reads 1 it never returns,
however many passes it is allowed. -/
theorem SystemCoreClockSwitch_polls (tc : Toolchain) (hw : Nat → Nat → Nat) (nosc : Nat)
    (s : Mcu) :
    (∀ k, 1 ≤ k → (∀ j, j + 1 < k → oswenAtPoll nosc hw s j = 1) →
      oswenAtPoll nosc hw s (k - 1) = 0 →
      (∀ fuel, k ≤ fuel → ∃ r s' tr,
        SystemCoreClockSwitch tc hw fuel nosc s = some (r, s', tr) ∧
        pollReads tr = List.replicate (k - 1) 1 ++ [0] ∧ (pollReads tr).length = k) ∧
      (∀ fuel, fuel < k → SystemCoreClockSwitch tc hw fuel nosc s = none)) ∧
    ((∀ j, oswenAtPoll nosc hw s j = 1) →
      ∀ fuel, SystemCoreClockSwitch tc hw fuel nosc s = none) := by
  constructor
  · intro k hk h1 h0
    obtain ⟨n, rfl⟩ : ∃ n, k = n + 1 := ⟨k - 1, by omega⟩
    simp only [Nat.add_sub_cancel] at h0 ⊢
    have h1' : ∀ j, j < n → oswenAtPoll nosc hw s j = 1 := fun j hj => h1 j (by omega)
    constructor
    · intro fuel hfuel
      have hreads : pollReads (traceAtPoll nosc hw (di tc (__builtin_get_isr_state tc s).2) n)
          = List.replicate n 1 ++ [0] := by
        rw [pollReads_traceAtPoll, List.range_succ, List.map_append, List.map_singleton,
          oswenAtPoll_congr nosc n hw _ s (entry_OSCCON tc s), h0]
        congr 1
        apply List.eq_replicate_iff.mpr
        refine ⟨by simp, ?_⟩
        intro b hb
        obtain ⟨j, hj, rfl⟩ := List.mem_map.mp hb
        rw [oswenAtPoll_congr nosc j hw _ s (entry_OSCCON tc s)]
        exact h1' j (List.mem_range.mp hj)
      refine ⟨_, _, _, SystemCoreClockSwitch_ends tc hw fuel nosc n s (by omega)
        (fun j hj => by rw [h1' j hj]; decide) h0, hreads, ?_⟩
      rw [hreads]
      simp
    · intro fuel hfuel
      exact SystemCoreClockSwitch_pending tc hw fuel nosc s
        (fun j hj => by rw [h1' j (by omega)]; decide)
  · intro h fuel
    exact SystemCoreClockSwitch_pending tc hw fuel nosc s
      (fun j _ => by rw [h j]; decide)

/-- C10, witness: on hardware that completes the switch at the third poll
the polls read 1, 1, 0 and the routine has not returned within two passes;
on hardware that never completes it the routine does not return within any
number of passes. -/
theorem SystemCoreClockSwitch_polls_witness :
    (∃ r s' tr, SystemCoreClockSwitch .XC32 (hwCompletesAt 2) 5 0b011 powerUp
        = some (r, s', tr) ∧ pollReads tr = [1, 1, 0] ∧ (pollReads tr).length = 3) ∧
    SystemCoreClockSwitch .XC32 (hwCompletesAt 2) 2 0b011 powerUp = none ∧
    (∀ fuel, SystemCoreClockSwitch .XC32 hwStuck fuel 0b011 powerUp = none) :=
  ⟨((SystemCoreClockSwitch_polls .XC32 (hwCompletesAt 2) 0b011 powerUp).1 3 (by decide)
      (fun j hj => (completes_fields 0b011 2 powerUp).1 j (by omega))
      (completes_fields 0b011 2 powerUp).2.1).1 5 (by decide),
   ((SystemCoreClockSwitch_polls .XC32 (hwCompletesAt 2) 0b011 powerUp).1 3 (by decide)
      (fun j hj => (completes_fields 0b011 2 powerUp).1 j (by omega))
      (completes_fields 0b011 2 powerUp).2.1).2 2 (by decide),
   (SystemCoreClockSwitch_polls .XC32 hwStuck 0b011 powerUp).2
      (fun j => oswenAtPoll_hwStuck 0b011 j powerUp)⟩

/-! ## The Timer2 tick: `systicks` -/

theorem systicks_succ (fuel : Nat) (obs : Nat → TickObs) :
    systicks (fuel + 1) obs =
      if (obs 0).high1 ^^^ (obs 0).high2 ≠ 0 then systicks fuel (fun j => obs (j + 1))
      else some ((obs 0).high1 ||| (obs 0).low % 2 ^ 16) :=
  rfl

/-- The loop of `systicks` ends at the first pass whose two reads of the
high word agree and returns the words of that pass. -/
theorem systicks_ends : ∀ (k : Nat) (obs : Nat → TickObs) (fuel : Nat), k < fuel →
    (∀ j, j < k → (obs j).high1 ≠ (obs j).high2) → (obs k).high1 = (obs k).high2 →
    systicks fuel obs = some ((obs k).high1 ||| (obs k).low % 2 ^ 16) := by
  intro k
  induction k with
  | zero =>
    intro obs fuel hfuel _ h0
    obtain ⟨n, rfl⟩ : ∃ n, fuel = n + 1 := ⟨fuel - 1, by omega⟩
    rw [systicks_succ, if_neg (by simp [Nat.xor_eq_zero, h0])]
  | succ k ih =>
    intro obs fuel hfuel h1 h0
    obtain ⟨n, rfl⟩ : ∃ n, fuel = n + 1 := ⟨fuel - 1, by omega⟩
    have hne : (obs 0).high1 ^^^ (obs 0).high2 ≠ 0 := by
      rw [Ne, Nat.xor_eq_zero]
      exact h1 0 (by omega)
    rw [systicks_succ, if_pos hne]
    exact ih (fun j => obs (j + 1)) n (by omega) (fun j hj => h1 (j + 1) (by omega)) h0

/-- While the two reads of the high word have differed in every pass made,
the loop of `systicks` has not ended. -/
theorem systicks_pending : ∀ (fuel : Nat) (obs : Nat → TickObs),
    (∀ j, j < fuel → (obs j).high1 ≠ (obs j).high2) → systicks fuel obs = none := by
  intro fuel
  induction fuel with
  | zero => intros; rfl
  | succ n ih =>
    intro obs h1
    have hne : (obs 0).high1 ^^^ (obs 0).high2 ≠ 0 := by
      rw [Ne, Nat.xor_eq_zero]
      exact h1 0 (by omega)
    rw [systicks_succ, if_pos hne]
    exact ih _ (fun j hj => h1 (j + 1) (by omega))

/-- A multiple of 65536 and a 16-bit value combine under bitwise OR as
under addition. -/
theorem or_low16 (a f : Nat) (ha : a % 65536 = 0) (hf : f < 65536) :
    a ||| f = a + f ∧ (a ||| f) / 65536 = a / 65536 ∧ (a ||| f) % 65536 = f := by
  have e : a = 2 ^ 16 * (a / 65536) := by omega
  have h : a ||| f = a + f := by
    rw [e]
    exact (Nat.mul_add_lt_is_or (by simpa using hf) _).symm
  rw [h]
  omega

/-- C11: torn-read avoidance in `systicks`. Over any sequence of
observations (high word, low word, high word again, per pass) the routine
returns the words of the first pass `k` in which the two reads of the high
word are equal, once it is allowed more than `k` passes, and has not
returned within the passes before, in which they differ. In particular,
when the first pass reads the high word `H` and then finds it incremented to
`H + 65536` (the low word having wrapped), and the second pass reads
`H + 65536` twice and the low word `l1`, the value returned has the
post-wrap high word and `l1` as low word, not the high word `H`. -/
theorem systicks_torn_read (obs : Nat → TickObs) :
    (∀ k, (∀ j, j < k → (obs j).high1 ≠ (obs j).high2) → (obs k).high1 = (obs k).high2 →
      (∀ fuel, k < fuel →
        systicks fuel obs = some ((obs k).high1 ||| (obs k).low % 2 ^ 16)) ∧
      (∀ fuel, fuel ≤ k → systicks fuel obs = none)) ∧
    (∀ H l0 l1, H < 2 ^ 32 → H % 65536 = 0 → l1 < 65536 →
      obs 0 = ⟨H, l0, u32 (H + 65536)⟩ →
      obs 1 = ⟨u32 (H + 65536), l1, u32 (H + 65536)⟩ →
      ∀ fuel, 2 ≤ fuel → ∃ r, systicks fuel obs = some r ∧
        r / 65536 = u32 (H + 65536) / 65536 ∧ r % 65536 = l1 ∧
        r / 65536 ≠ H / 65536) := by
  constructor
  · intro k h1 h0
    exact ⟨fun fuel hfuel => systicks_ends k obs fuel hfuel h1 h0,
      fun fuel hfuel => systicks_pending fuel obs (fun j hj => h1 j (by omega))⟩
  · intro H l0 l1 hH hH0 hl1 e0 e1 fuel hfuel
    have hu : u32 (H + 65536) % 65536 = 0 := by unfold u32; omega
    have hne : H ≠ u32 (H + 65536) := by unfold u32; omega
    have hr := systicks_ends 1 obs fuel (by omega)
      (fun j hj => by
        obtain rfl : j = 0 := by omega
        rw [e0]; exact hne)
      (by rw [e1])
    rw [e1] at hr
    simp only [] at hr
    obtain ⟨_, a2, a3⟩ := or_low16 (u32 (H + 65536)) (l1 % 2 ^ 16) hu
      (Nat.mod_lt _ (by norm_num))
    refine ⟨_, hr, a2, ?_, ?_⟩
    · rw [a3]; exact Nat.mod_eq_of_lt hl1
    · rw [a2]; unfold u32; omega

/-- C11, witness: the high word changes from `0x10000` to `0x20000` during
the first pass; the second pass is stable and the routine returns `0x20005`,
within two passes and not within one. -/
theorem systicks_torn_read_witness :
    systicks 2 wrapObs = some 0x20005 ∧ systicks 1 wrapObs = none ∧
    (∃ r, systicks 2 wrapObs = some r ∧ r / 65536 = u32 (0x10000 + 65536) / 65536 ∧
      r % 65536 = 5 ∧ r / 65536 ≠ 0x10000 / 65536) :=
  ⟨((systicks_torn_read wrapObs).1 1
      (fun j hj => by obtain rfl : j = 0 := by omega
                      decide) (by decide)).1 2 (by decide),
   ((systicks_torn_read wrapObs).1 1
      (fun j hj => by obtain rfl : j = 0 := by omega
                      decide) (by decide)).2 1 (by decide),
   (systicks_torn_read wrapObs).2 0x10000 0 5 (by decide) (by decide) (by decide)
      (by decide) (by decide) 2 (by decide)⟩

/-! ## The software high word `systick_count` -/

/-- The loop of the oscillator switch changes OSCCON and SYSKEY only,
whenever it ends. -/
theorem switchLoop_frame (nosc : Nat) : ∀ (fuel : Nat) (hw : Nat → Nat → Nat) (s t : Mcu)
    (tr tr' : List Step), switchLoop nosc fuel hw s tr = some (t, tr') →
    t = { s with SYSKEY := 0x33333333, OSCCON := t.OSCCON } := by
  intro fuel
  induction fuel with
  | zero => intro hw s t tr tr' h; exact absurd h (by simp [switchLoop])
  | succ n ih =>
    intro hw s t tr tr' h
    rw [switchLoop_succ] at h
    split_ifs at h with hc
    · have := ih _ _ _ _ _ h
      rw [this]
      rfl
    · simp only [Option.some.injEq, Prod.mk.injEq] at h
      rw [← h.1]
      rfl

/-- A returning oscillator switch leaves `systick_count` as it was. -/
theorem SystemCoreClockSwitch_systick (tc : Toolchain) (hw : Nat → Nat → Nat)
    (fuel nosc r : Nat) (s t : Mcu) (tr : List Step)
    (h : SystemCoreClockSwitch tc hw fuel nosc s = some (r, t, tr)) :
    t.systick_count = s.systick_count := by
  unfold SystemCoreClockSwitch at h
  simp only [] at h
  cases hl : switchLoop nosc fuel hw (di tc (__builtin_get_isr_state tc s).2) [] with
  | none => rw [hl] at h; exact absurd h (by simp)
  | some p =>
    obtain ⟨s3, tr3⟩ := p
    rw [hl] at h
    simp only [Option.some.injEq, Prod.mk.injEq] at h
    have hf := switchLoop_frame nosc fuel hw _ s3 [] tr3 hl
    rw [← h.2.1, hf]
    cases tc <;> rfl

theorem callHandler_systick (user : Nat → Mcu → Mcu)
    (hu : ∀ id s, (user id s).systick_count = s.systick_count) (h : Handler) (s : Mcu) :
    (callHandler user h s).systick_count = s.systick_count := by
  cases h with
  | empty_handler => rfl
  | user id => exact hu id s

theorem T2Interrupt_systick (user : Nat → Mcu → Mcu)
    (hu : ∀ id s, (user id s).systick_count = s.systick_count) (s : Mcu) :
    (_T2Interrupt user s).1.systick_count = (s.systick_count + 65536) % 2 ^ 32 := by
  unfold _T2Interrupt
  simp only []
  rw [callHandler_systick user hu]
  rfl

theorem CoreTimerHandler_systick (user : Nat → Mcu → Mcu)
    (hu : ∀ id s, (user id s).systick_count = s.systick_count) (s : Mcu) :
    (CoreTimerHandler user s).1.systick_count = s.systick_count := by
  unfold CoreTimerHandler
  simp only []
  rw [callHandler_systick user hu]
  rfl

theorem mcuInit_systick (tc : Toolchain) (s : Mcu) :
    (mcuInit tc s).systick_count = s.systick_count := by
  cases tc <;> rfl

/-- In every reachable state `systick_count` is a multiple of 65536. -/
theorem reachable_systick (user : Nat → Mcu → Mcu)
    (hu : ∀ id s, (user id s).systick_count = s.systick_count) (s0 : Mcu)
    (h0 : s0.systick_count = 0) (s : Mcu) (hs : Reachable user s0 s) :
    s.systick_count % 65536 = 0 := by
  induction hs with
  | start => rw [h0]
  | tmr2Init ps period _ _ => rfl
  | t2Interrupt _ ih => rw [T2Interrupt_systick user hu]; omega
  | tmr2AttachISR isrptr _ ih => exact ih
  | update _ ih => exact ih
  | switch tc hw fuel nosc r tr _ h ih =>
    rw [SystemCoreClockSwitch_systick tc hw fuel nosc r _ _ tr h]; exact ih
  | coretimer_init _ ih => exact ih
  | coretimer_setpr pr _ ih => exact ih
  | coretimer_getpr _ ih => exact ih
  | coreTimerHandler _ ih => rw [CoreTimerHandler_systick user hu]; exact ih
  | coretimerAttachISR isrptr _ ih => exact ih
  | mcuInit tc _ ih => rw [mcuInit_systick]; exact ih

/-- C12: in every state reachable from power-up, when `systick_count` does
not change during the call and TMR2 reads the 16-bit value `t`, `systicks()`
returns the concatenation of the software high word and the hardware low
word: the result shifted right by 16 is `systick_count >> 16`, its low 16
bits are `t`, and the bitwise OR returned equals `systick_count + t`. -/
theorem systicks_concat (user : Nat → Mcu → Mcu)
    (hu : ∀ id s, (user id s).systick_count = s.systick_count) (s0 : Mcu)
    (h0 : s0.systick_count = 0) (s : Mcu) (hs : Reachable user s0 s) (t : Nat)
    (ht : t < 65536) (fuel : Nat) (hfuel : 1 ≤ fuel) :
    ∃ r, systicks fuel (quietObs s t) = some r ∧
      r >>> 16 = s.systick_count >>> 16 ∧ r &&& 0xFFFF = t ∧
      r = s.systick_count + t ∧ r = s.systick_count ||| t := by
  have hm := reachable_systick user hu s0 h0 s hs
  have hr := systicks_ends 0 (quietObs s t) fuel (by omega)
    (fun j hj => absurd hj (Nat.not_lt_zero j)) rfl
  have e : (quietObs s t 0).high1 ||| (quietObs s t 0).low % 2 ^ 16 = s.systick_count ||| t := by
    show s.systick_count ||| t % 2 ^ 16 = _
    rw [Nat.mod_eq_of_lt (by simpa using ht)]
  rw [e] at hr
  obtain ⟨a1, a2, a3⟩ := or_low16 s.systick_count t hm ht
  refine ⟨_, hr, ?_, ?_, a1, rfl⟩
  · rw [Nat.shiftRight_eq_div_pow, Nat.shiftRight_eq_div_pow]
    exact a2
  · rw [show (0xFFFF : Nat) = 2 ^ 16 - 1 from rfl, Nat.and_pow_two_sub_one_eq_mod]
    exact a3

/-- C12, witness: after `tmr2Init` and two Timer2 interrupts
`systick_count` is `0x20000`; with TMR2 reading `0x1234` the routine returns
`0x21234`. -/
theorem systicks_concat_witness :
    ∃ r, systicks 1 (quietObs
        (_T2Interrupt userIdle (_T2Interrupt userIdle (tmr2Init 0 0xffff powerUp)).1).1
        0x1234) = some r ∧
      r >>> 16 = 2 ∧ r &&& 0xFFFF = 0x1234 ∧ r = 0x20000 + 0x1234 ∧ r = 0x21234 := by
  obtain ⟨r, h1, h2, h3, h4, _⟩ := systicks_concat userIdle (fun _ _ => rfl) powerUp rfl
    (_T2Interrupt userIdle (_T2Interrupt userIdle (tmr2Init 0 0xffff powerUp)).1).1
    (Reachable.t2Interrupt (Reachable.t2Interrupt
      (Reachable.tmr2Init 0 0xffff Reachable.start)))
    0x1234 (by decide) 1 (by decide)
  exact ⟨r, h1, h2, h3, h4, h4⟩

/-- C13: the software tick high word is 0 at power-up, `tmr2Init` sets it
to 0, each `_T2Interrupt` sets it to `(systick_count + 65536) mod 2^32`, and
no other modelled routine writes it (the routines of the user leaving it
alone); hence it is a multiple of 65536 in every reachable state. -/
theorem systick_count_writers (user : Nat → Mcu → Mcu)
    (hu : ∀ id s, (user id s).systick_count = s.systick_count) (s0 : Mcu)
    (h0 : s0.systick_count = 0) :
    powerUp.systick_count = 0 ∧
    (∀ ps period s, (tmr2Init ps period s).systick_count = 0) ∧
    (∀ s, (_T2Interrupt user s).1.systick_count = (s.systick_count + 65536) % 2 ^ 32) ∧
    (∀ isrptr s, (tmr2AttachISR isrptr s).systick_count = s.systick_count) ∧
    (∀ s, (SystemCoreClockUpdate s).2.systick_count = s.systick_count) ∧
    (∀ tc hw fuel nosc r s t tr, SystemCoreClockSwitch tc hw fuel nosc s = some (r, t, tr) →
      t.systick_count = s.systick_count) ∧
    (∀ s, (coretimer_init s).systick_count = s.systick_count) ∧
    (∀ pr s, (coretimer_setpr pr s).2.systick_count = s.systick_count) ∧
    (∀ s, (coretimer_getpr s).2.systick_count = s.systick_count) ∧
    (∀ s, (CoreTimerHandler user s).1.systick_count = s.systick_count) ∧
    (∀ isrptr s, (coretimerAttachISR isrptr s).systick_count = s.systick_count) ∧
    (∀ tc s, (mcuInit tc s).systick_count = s.systick_count) ∧
    (∀ s, Reachable user s0 s → s.systick_count % 65536 = 0) :=
  ⟨rfl, fun _ _ _ => rfl, T2Interrupt_systick user hu, fun _ _ => rfl, fun _ => rfl,
   fun tc hw fuel nosc r s t tr h => SystemCoreClockSwitch_systick tc hw fuel nosc r s t tr h,
   fun _ => rfl, fun _ _ => rfl, fun _ => rfl, CoreTimerHandler_systick user hu,
   fun _ _ => rfl, mcuInit_systick, reachable_systick user hu s0 h0⟩

/-- C13, witness: with an idle user routine, from the sample power-up state,
`tmr2Init` followed by two Timer2 interrupts leaves `systick_count` at
`0x20000`, and an interrupt at `0xFFFF0000` wraps it to 0. -/
theorem systick_count_writers_witness :
    (_T2Interrupt userIdle (_T2Interrupt userIdle (tmr2Init 0 0xffff powerUp)).1).1.systick_count
      = 0x20000 ∧
    (_T2Interrupt userIdle { powerUp with systick_count := 0xFFFF0000 }).1.systick_count = 0 ∧
    (_T2Interrupt userIdle (_T2Interrupt userIdle
      (tmr2Init 0 0xffff powerUp)).1).1.systick_count % 65536 = 0 :=
  ⟨by decide,
   ((systick_count_writers userIdle (fun _ _ => rfl) powerUp rfl).2.2.1
      { powerUp with systick_count := 0xFFFF0000 }).trans (by decide),
   (systick_count_writers userIdle (fun _ _ => rfl) powerUp rfl).2.2.2.2.2.2.2.2.2.2.2.2 _
      (Reachable.t2Interrupt (Reachable.t2Interrupt
        (Reachable.tmr2Init 0 0xffff Reachable.start)))⟩

/-! ## The core timer -/

theorem coreTimerRearm_eq (s : Mcu) :
    coreTimerRearm s
      = { s with CTIF := false, COMPARE := (s.COMPARE + s._coretimer_pr) % 2 ^ 32 } :=
  rfl

theorem CoreTimerHandler_eq (user : Nat → Mcu → Mcu) (s : Mcu) :
    CoreTimerHandler user s
      = (callHandler user s._coretimer_isrptr (coreTimerRearm s), [s._coretimer_isrptr]) :=
  rfl

/-- C14: each invocation of `CoreTimerHandler` calls the attached callback
exactly once, on a state in which the match flag is cleared and COMPARE is
`(previous COMPARE + _coretimer_pr) mod 2^32`, whatever COUNT is, and in
which the stored period, the callback slot and everything else are as
before; with a callback that leaves these four alone, and in particular with
`empty_handler`, that is also the state after the invocation. -/
theorem CoreTimerHandler_effect (user : Nat → Mcu → Mcu) (s : Mcu) :
    (CoreTimerHandler user s).2 = [s._coretimer_isrptr] ∧
    (CoreTimerHandler user s).1 = callHandler user s._coretimer_isrptr
      { s with CTIF := false, COMPARE := (s.COMPARE + s._coretimer_pr) % 2 ^ 32 } ∧
    (∀ c, (CoreTimerHandler user { s with COUNT := c }).1 = callHandler user s._coretimer_isrptr
      { s with COUNT := c, CTIF := false,
               COMPARE := (s.COMPARE + s._coretimer_pr) % 2 ^ 32 }) ∧
    (s._coretimer_isrptr = Handler.empty_handler → (CoreTimerHandler user s).1
      = { s with CTIF := false, COMPARE := (s.COMPARE + s._coretimer_pr) % 2 ^ 32 }) ∧
    ((∀ id t, (user id t).CTIF = t.CTIF ∧ (user id t).COMPARE = t.COMPARE ∧
        (user id t)._coretimer_pr = t._coretimer_pr ∧
        (user id t)._coretimer_isrptr = t._coretimer_isrptr) →
      (CoreTimerHandler user s).1.CTIF = false ∧
      (CoreTimerHandler user s).1.COMPARE = (s.COMPARE + s._coretimer_pr) % 2 ^ 32 ∧
      (CoreTimerHandler user s).1._coretimer_pr = s._coretimer_pr ∧
      (CoreTimerHandler user s).1._coretimer_isrptr = s._coretimer_isrptr) := by
  refine ⟨rfl, rfl, fun _ => rfl, ?_, ?_⟩
  · intro h
    have e : callHandler user s._coretimer_isrptr (coreTimerRearm s) = coreTimerRearm s := by
      rw [h]
      rfl
    exact e
  · intro hu
    have key : ∀ h : Handler,
        (callHandler user h (coreTimerRearm s)).CTIF = (coreTimerRearm s).CTIF ∧
        (callHandler user h (coreTimerRearm s)).COMPARE = (coreTimerRearm s).COMPARE ∧
        (callHandler user h (coreTimerRearm s))._coretimer_pr
          = (coreTimerRearm s)._coretimer_pr ∧
        (callHandler user h (coreTimerRearm s))._coretimer_isrptr
          = (coreTimerRearm s)._coretimer_isrptr := by
      intro h
      cases h with
      | empty_handler => exact ⟨rfl, rfl, rfl, rfl⟩
      | user id => exact hu id (coreTimerRearm s)
    exact key s._coretimer_isrptr

/-- C14, witness: with period 500 stored, COMPARE at `0xFFFFFFFF` and COUNT
at 77, a match with the no-op callback leaves the flag clear and COMPARE at
499 (advanced from the old value, modulo `2^32`). -/
theorem CoreTimerHandler_effect_witness :
    (CoreTimerHandler userIdle
      { powerUp with _coretimer_pr := 500, COMPARE := 0xFFFFFFFF, COUNT := 77, CTIF := true }).1
      = { powerUp with _coretimer_pr := 500, COMPARE := 499, COUNT := 77, CTIF := false } ∧
    (CoreTimerHandler userIdle
      { powerUp with _coretimer_pr := 500, COMPARE := 0xFFFFFFFF, COUNT := 77, CTIF := true }).2
      = [Handler.empty_handler] :=
  ⟨((CoreTimerHandler_effect userIdle
      { powerUp with _coretimer_pr := 500, COMPARE := 0xFFFFFFFF, COUNT := 77,
                     CTIF := true }).2.2.2.1 rfl).trans (by decide),
   (CoreTimerHandler_effect userIdle
      { powerUp with _coretimer_pr := 500, COMPARE := 0xFFFFFFFF, COUNT := 77,
                     CTIF := true }).1⟩

theorem CoreTimerHandler_COMPARE (user : Nat → Mcu → Mcu)
    (hu : ∀ id t, (user id t).COMPARE = t.COMPARE) (s : Mcu) :
    (CoreTimerHandler user s).1.COMPARE = (s.COMPARE + s._coretimer_pr) % 2 ^ 32 := by
  rw [CoreTimerHandler_eq]
  cases s._coretimer_isrptr with
  | empty_handler => rfl
  | user id => exact hu id (coreTimerRearm s)

/-- C15, as stated, fails: after `coretimer_setpr(3)` a match advances
COMPARE by 1 count, that is by 2 clock units, not by 3. -/
theorem coretimer_period_odd :
    u32 (2 * sub32 (CoreTimerHandler userIdle (coretimer_setpr 3 powerUp).2).1.COMPARE
      (coretimer_setpr 3 powerUp).2.COMPARE) = 2 ∧
    u32 (2 * sub32 (CoreTimerHandler userIdle (coretimer_setpr 3 powerUp).2).1.COMPARE
      (coretimer_setpr 3 powerUp).2.COMPARE) ≠ 3 := by
  constructor <;> decide

/-- C15, amended: after `coretimer_setpr(P)` the stored period is `P / 2`
counts, and every match in a state with that stored period (the callback
leaving COMPARE alone) advances COMPARE by `P / 2` counts modulo `2^32`, that
is by `2 * (P / 2)` clock units: exactly `P` when `P` is even, `P - 1` when
`P` is odd. -/
theorem coretimer_period_advance (user : Nat → Mcu → Mcu)
    (hu : ∀ id t, (user id t).COMPARE = t.COMPARE) (P : Nat) (hP : P < 2 ^ 32) (s : Mcu) :
    (coretimer_setpr P s).2._coretimer_pr = P / 2 ∧
    (∀ t : Mcu, t._coretimer_pr = (coretimer_setpr P s).2._coretimer_pr → t.COMPARE < 2 ^ 32 →
      sub32 (CoreTimerHandler user t).1.COMPARE t.COMPARE = P / 2 ∧
      u32 (2 * sub32 (CoreTimerHandler user t).1.COMPARE t.COMPARE) = 2 * (P / 2) ∧
      (P % 2 = 0 → u32 (2 * sub32 (CoreTimerHandler user t).1.COMPARE t.COMPARE) = P) ∧
      (P % 2 = 1 → u32 (2 * sub32 (CoreTimerHandler user t).1.COMPARE t.COMPARE) = P - 1)) := by
  refine ⟨rfl, ?_⟩
  intro t ht hc
  have e : t._coretimer_pr = P / 2 := ht
  rw [CoreTimerHandler_COMPARE user hu, e]
  have hd : sub32 ((t.COMPARE + P / 2) % 2 ^ 32) t.COMPARE = P / 2 := by
    unfold sub32
    norm_num at hP hc ⊢
    omega
  rw [hd]
  unfold u32
  norm_num at hP ⊢
  omega

/-- C15, witness: period 1000 from the sample state; the match right after
advances COMPARE by 500 counts, 1000 clock units. -/
theorem coretimer_period_advance_witness :
    1000 < 2 ^ 32 ∧
    sub32 (CoreTimerHandler userIdle (coretimer_setpr 1000 powerUp).2).1.COMPARE
      (coretimer_setpr 1000 powerUp).2.COMPARE = 500 ∧
    u32 (2 * sub32 (CoreTimerHandler userIdle (coretimer_setpr 1000 powerUp).2).1.COMPARE
      (coretimer_setpr 1000 powerUp).2.COMPARE) = 1000 :=
  ⟨by decide,
   ((coretimer_period_advance userIdle (fun _ _ => rfl) 1000 (by decide) powerUp).2
      (coretimer_setpr 1000 powerUp).2 rfl (by decide)).1,
   ((coretimer_period_advance userIdle (fun _ _ => rfl) 1000 (by decide) powerUp).2
      (coretimer_setpr 1000 powerUp).2 rfl (by decide)).2.2.1 (by decide)⟩

/-- C16: `coretimerAttachISR(f)` puts `f` in the callback slot whatever it
held, clears the match flag, enables the core-timer interrupt and changes
nothing else; a later attach overwrites an earlier one, and the handler then
calls `f` and only `f`. -/
theorem coretimerAttachISR_effect (user : Nat → Mcu → Mcu) (f : Handler) (s : Mcu) :
    (coretimerAttachISR f s)._coretimer_isrptr = f ∧
    (coretimerAttachISR f s).CTIF = false ∧
    (coretimerAttachISR f s).CTIE = true ∧
    coretimerAttachISR f s = { s with _coretimer_isrptr := f, CTIF := false, CTIE := true } ∧
    (∀ g, (coretimerAttachISR f (coretimerAttachISR g s))._coretimer_isrptr = f) ∧
    (CoreTimerHandler user (coretimerAttachISR f s)).2 = [f] ∧
    (s._coretimer_isrptr ≠ f →
      s._coretimer_isrptr ∉ (CoreTimerHandler user (coretimerAttachISR f s)).2) := by
  refine ⟨rfl, rfl, rfl, rfl, fun _ => rfl, rfl, ?_⟩
  intro h hmem
  have : (CoreTimerHandler user (coretimerAttachISR f s)).2 = [f] := rfl
  rw [this, List.mem_singleton] at hmem
  exact h hmem

/-- C16, witness: routine 2 attached over routine 1, with the interrupt
disabled and the flag set before. -/
theorem coretimerAttachISR_effect_witness :
    (coretimerAttachISR (Handler.user 2)
      { powerUp with _coretimer_isrptr := Handler.user 1, CTIF := true, CTIE := false })
      = { powerUp with _coretimer_isrptr := Handler.user 2, CTIF := false, CTIE := true } ∧
    Handler.user 1 ∉ (CoreTimerHandler userIdle (coretimerAttachISR (Handler.user 2)
      { powerUp with _coretimer_isrptr := Handler.user 1, CTIF := true, CTIE := false })).2 :=
  ⟨(coretimerAttachISR_effect userIdle (Handler.user 2)
      { powerUp with _coretimer_isrptr := Handler.user 1, CTIF := true,
                     CTIE := false }).2.2.2.1,
   (coretimerAttachISR_effect userIdle (Handler.user 2)
      { powerUp with _coretimer_isrptr := Handler.user 1, CTIF := true,
                     CTIE := false }).2.2.2.2.2.2 (by decide)⟩

/-- C17: after `coretimer_init`, whatever the state before, the callback
slot holds `empty_handler`; a following `CoreTimerHandler` invocation calls
only `empty_handler` and changes nothing except the match flag and COMPARE. -/
theorem coretimer_init_resets_slot (user : Nat → Mcu → Mcu) (s : Mcu) :
    (coretimer_init s)._coretimer_isrptr = Handler.empty_handler ∧
    (CoreTimerHandler user (coretimer_init s)).2 = [Handler.empty_handler] ∧
    (CoreTimerHandler user (coretimer_init s)).1
      = { coretimer_init s with
          CTIF := false,
          COMPARE := ((coretimer_init s).COMPARE + (coretimer_init s)._coretimer_pr)
            % 2 ^ 32 } :=
  ⟨rfl, rfl, rfl⟩

/-- C18, as stated, fails: `coretimer_init` on a state with the core-timer
interrupt enabled leaves it disabled. -/
theorem coretimer_init_disables :
    ({ powerUp with CTIE := true } : Mcu).CTIE = true ∧
    (coretimer_init { powerUp with CTIE := true }).CTIE = false := by
  constructor <;> decide

/-- C18, amended: `coretimer_setpr`, `coretimer_getpr`, `coretimerAttachISR`
and `CoreTimerHandler` (its callback leaving the enable alone) keep an
enabled core-timer interrupt enabled; `coretimer_init` is the one routine
that disables it, from either state. -/
theorem coretimer_enable_kept (user : Nat → Mcu → Mcu)
    (hu : ∀ id t, (user id t).CTIE = t.CTIE) (s : Mcu) (h : s.CTIE = true) :
    (∀ pr, (coretimer_setpr pr s).2.CTIE = true) ∧
    (coretimer_getpr s).2.CTIE = true ∧
    (∀ f, (coretimerAttachISR f s).CTIE = true) ∧
    (CoreTimerHandler user s).1.CTIE = true ∧
    (coretimer_init s).CTIE = false := by
  refine ⟨fun _ => h, h, fun _ => rfl, ?_, rfl⟩
  rw [CoreTimerHandler_eq]
  cases s._coretimer_isrptr with
  | empty_handler => exact h
  | user id => exact (hu id (coreTimerRearm s)).trans h

/-- C18, witness: the sample state with the interrupt enabled. -/
theorem coretimer_enable_kept_witness :
    ({ powerUp with CTIE := true } : Mcu).CTIE = true ∧
    (coretimer_setpr 1000 { powerUp with CTIE := true }).2.CTIE = true ∧
    (CoreTimerHandler userIdle { powerUp with CTIE := true }).1.CTIE = true ∧
    (coretimer_init { powerUp with CTIE := true }).CTIE = false :=
  ⟨rfl,
   (coretimer_enable_kept userIdle (fun _ _ => rfl) { powerUp with CTIE := true } rfl).1 1000,
   (coretimer_enable_kept userIdle (fun _ _ => rfl) { powerUp with CTIE := true } rfl).2.2.2.1,
   (coretimer_enable_kept userIdle (fun _ _ => rfl) { powerUp with CTIE := true } rfl).2.2.2.2⟩

/-- C19, as stated, fails: after `coretimer_setpr(1000)` the call
`coretimer_getpr()` returns 500. -/
theorem coretimer_getpr_half :
    (coretimer_getpr (coretimer_setpr 1000 powerUp).2).1 = 500 ∧
    (coretimer_getpr (coretimer_setpr 1000 powerUp).2).1 ≠ 1000 := by
  constructor <;> decide

/-- C19, amended: after `coretimer_setpr(pr)` the call `coretimer_getpr()`
returns `pr / 2`, the period in core-timer counts, and leaves the state as
it is; the value equals `pr` only for `pr = 0`, and twice the value is `pr`
for even `pr`. -/
theorem coretimer_setpr_getpr (pr : Nat) (s : Mcu) :
    (coretimer_getpr (coretimer_setpr pr s).2).1 = pr / 2 ∧
    (coretimer_getpr (coretimer_setpr pr s).2).2 = (coretimer_setpr pr s).2 ∧
    ((coretimer_getpr (coretimer_setpr pr s).2).1 = pr ↔ pr = 0) ∧
    (pr % 2 = 0 → 2 * (coretimer_getpr (coretimer_setpr pr s).2).1 = pr) := by
  have e : (coretimer_getpr (coretimer_setpr pr s).2).1 = pr / 2 := rfl
  refine ⟨e, rfl, ?_, ?_⟩
  · rw [e]; omega
  · rw [e]; omega

/-- C19, witness: `coretimer_setpr(1000)` then `coretimer_getpr()` gives
500, and twice that is the 1000 that was set. -/
theorem coretimer_setpr_getpr_witness :
    (coretimer_getpr (coretimer_setpr 1000 powerUp).2).1 = 1000 / 2 ∧
    2 * (coretimer_getpr (coretimer_setpr 1000 powerUp).2).1 = 1000 :=
  ⟨(coretimer_setpr_getpr 1000 powerUp).1,
   (coretimer_setpr_getpr 1000 powerUp).2.2.2 (by decide)⟩

/-! ## `mcuInit` -/

theorem bfins_FRCDIV (o v : Nat) :
    bfext (bfins o 24 3 v) 24 3 = v % 8 ∧ bfext (bfins o 24 3 v) 12 3 = bfext o 12 3 ∧
    bfext (bfins o 24 3 v) 16 3 = bfext o 16 3 ∧ bfext (bfins o 24 3 v) 19 2 = bfext o 19 2 ∧
    bfext (bfins o 24 3 v) 27 3 = bfext o 27 3 := by
  simp only [bfins, bfext]
  norm_num
  refine ⟨?_, ?_, ?_, ?_, ?_⟩ <;> omega

theorem bfins_PBDIV (o v : Nat) :
    bfext (bfins o 19 2 v) 19 2 = v % 4 ∧ bfext (bfins o 19 2 v) 12 3 = bfext o 12 3 ∧
    bfext (bfins o 19 2 v) 16 3 = bfext o 16 3 ∧ bfext (bfins o 19 2 v) 24 3 = bfext o 24 3 ∧
    bfext (bfins o 19 2 v) 27 3 = bfext o 27 3 := by
  simp only [bfins, bfext]
  norm_num
  refine ⟨?_, ?_, ?_, ?_, ?_⟩ <;> omega

theorem mcuInit_OSCCON (tc : Toolchain) (s : Mcu) :
    (mcuInit tc s).OSCCON = bfins (bfins s.OSCCON 19 2 0) 24 3 1 := by
  cases tc <;> rfl

theorem mcuInit_SystemCoreClock (tc : Toolchain) (s : Mcu) :
    (mcuInit tc s).SystemCoreClock = coreClockOf (mcuInit tc s).OSCCON s.FPLLIDIV := by
  cases tc <;> rfl

/-- After `mcuInit` the fields of OSCCON: `PBDIV` is 0, `FRCDIV` is 1, and
the source and PLL fields are as before. -/
theorem mcuInit_fields (tc : Toolchain) (s : Mcu) :
    bfext (mcuInit tc s).OSCCON 19 2 = 0 ∧ bfext (mcuInit tc s).OSCCON 24 3 = 1 ∧
    bfext (mcuInit tc s).OSCCON 12 3 = bfext s.OSCCON 12 3 ∧
    bfext (mcuInit tc s).OSCCON 16 3 = bfext s.OSCCON 16 3 ∧
    bfext (mcuInit tc s).OSCCON 27 3 = bfext s.OSCCON 27 3 := by
  rw [mcuInit_OSCCON]
  obtain ⟨a24, a12, a16, a19, a27⟩ := bfins_FRCDIV (bfins s.OSCCON 19 2 0) 1
  obtain ⟨b19, b12, b16, _, b27⟩ := bfins_PBDIV s.OSCCON 0
  exact ⟨a19.trans b19, a24, a12.trans b12, a16.trans b16, a27.trans b27⟩

/-- With the FRCDIV source current, `mcuInit` leaves 4,000,000 in
`SystemCoreClock`. -/
theorem mcuInit_FRCDIV_clock (tc : Toolchain) (s : Mcu) (h : bfext s.OSCCON 12 3 = 0b111) :
    (mcuInit tc s).SystemCoreClock = 4000000 := by
  obtain ⟨_, f24, f12, _, _⟩ := mcuInit_fields tc s
  rw [mcuInit_SystemCoreClock, (coreClockOf_cases _ _).1 (f12.trans h), f24]
  decide

/-- C20, the code at a failing input: with the FRCDIV source current
(`COSC = 0b111`), `mcuInit` writes 1 to the `FRCDIV` field, which the
resolver's mask decodes as `CLKFRCDIV_2`, not `CLKFRCDIV_1`, and the resolved
frequency it stores is 4,000,000 Hz, not 8,000,000. -/
theorem mcuInit_FRCDIV_is_two :
    bfext (mcuInit .XC32 (cfgSource 0b111 0b000)).OSCCON 24 3 = 1 ∧
    (mcuInit .XC32 (cfgSource 0b111 0b000)).OSCCON &&& CLKFRCDIV_256 = CLKFRCDIV_2 ∧
    (mcuInit .XC32 (cfgSource 0b111 0b000)).OSCCON &&& CLKFRCDIV_256 ≠ CLKFRCDIV_1 ∧
    (mcuInit .XC32 (cfgSource 0b111 0b000)).SystemCoreClock = 4000000 ∧
    (SystemCoreClockUpdate (mcuInit .XC32 (cfgSource 0b111 0b000))).1 = 4000000 ∧
    (SystemCoreClockUpdate (cfgSource 0b111 0b000)).1 = 8000000 := by
  refine ⟨?_, ?_, ?_, ?_, ?_, ?_⟩ <;> decide

/-! ## `mcuInit` and the peripheral bus divider -/

theorem mcuInit_FPLLIDIV (tc : Toolchain) (s : Mcu) :
    (mcuInit tc s).FPLLIDIV = s.FPLLIDIV := by
  cases tc <;> rfl

/-- C21: after `mcuInit` the `PBDIV` field of OSCCON is 0, so `F_PHB`, the
variable `SystemCoreClock` shifted right by `PBDIV`, equals
`SystemCoreClock`, and `SystemCoreClock` is what `SystemCoreClockUpdate`
computes for the oscillator configuration `mcuInit` leaves. -/
theorem mcuInit_PBDIV (tc : Toolchain) (s : Mcu) :
    bfext (mcuInit tc s).OSCCON 19 2 = 0 ∧
    F_PHB (mcuInit tc s) = (mcuInit tc s).SystemCoreClock ∧
    (mcuInit tc s).SystemCoreClock = (SystemCoreClockUpdate (mcuInit tc s)).1 := by
  have h := (mcuInit_fields tc s).1
  refine ⟨h, ?_, ?_⟩
  · unfold F_PHB
    rw [h]
    rfl
  · rw [mcuInit_SystemCoreClock]
    show _ = coreClockOf (mcuInit tc s).OSCCON (mcuInit tc s).FPLLIDIV
    rw [mcuInit_FPLLIDIV]

/-! ## Exhaustive decode and absence of overflow -/

theorem switchPLLMULT_eq_nat (o x : Nat) (hx : x ≤ 20000000) :
    switchPLLMULT o x = switchPLLMULTNat o x ∧ switchPLLMULTNat o x ≤ 480000000 := by
  unfold switchPLLMULT switchPLLMULTNat u32
  simp only []
  split_ifs <;> (norm_num; omega)

/-- C28: no 32-bit overflow occurs in `SystemCoreClockUpdate`. For every
OSCCON and `FPLLIDIV` value the product of the PLL stage is at most
480,000,000, below `2^32`; the value returned equals the same computation
over the unbounded naturals and lies between 31,250 and 480,000,000. -/
theorem SystemCoreClockUpdate_no_overflow (s : Mcu) :
    (switchPLLMULTNat s.OSCCON (switchFPLLIDIV s.FPLLIDIV F_XTAL) ≤ 480000000 ∧
      switchPLLMULTNat s.OSCCON (switchFPLLIDIV s.FPLLIDIV F_FRC) ≤ 480000000 ∧
      480000000 < 2 ^ 32) ∧
    (SystemCoreClockUpdate s).1 = coreClockOfNat s.OSCCON s.FPLLIDIV ∧
    31250 ≤ (SystemCoreClockUpdate s).1 ∧ (SystemCoreClockUpdate s).1 ≤ 480000000 := by
  have bx := (switchFPLLIDIV_bounds s.FPLLIDIV F_XTAL (by decide) (by decide)).2
  have bf := (switchFPLLIDIV_bounds s.FPLLIDIV F_FRC (by decide) (by decide)).2
  obtain ⟨ex, ux⟩ := switchPLLMULT_eq_nat s.OSCCON _ bx
  obtain ⟨ef, uf⟩ := switchPLLMULT_eq_nat s.OSCCON _ bf
  refine ⟨⟨ux, uf, by norm_num⟩, ?_, coreClockOf_bounds s.OSCCON s.FPLLIDIV⟩
  show coreClockOf s.OSCCON s.FPLLIDIV = coreClockOfNat s.OSCCON s.FPLLIDIV
  unfold coreClockOf coreClockOfNat
  rw [ex, ef]

/-! ## The register accesses of the oscillator switch -/

theorem delayLoop_succ (start_time ms fuel : Nat) (polls : Nat → Nat) :
    delayLoop start_time ms (fuel + 1) polls =
      if sub32 (polls 0) start_time < ms then
        (delayLoop start_time ms fuel (fun j => polls (j + 1))).map (fun n => n + 1)
      else some 1 :=
  rfl

/-- The loop of `delay` ends at the first poll whose elapsed count has
reached the threshold. -/
theorem delayLoop_ends (start_time ms : Nat) : ∀ (k : Nat) (polls : Nat → Nat) (fuel : Nat),
    k < fuel → (∀ j, j < k → sub32 (polls j) start_time < ms) →
    ms ≤ sub32 (polls k) start_time →
    delayLoop start_time ms fuel polls = some (k + 1) := by
  intro k
  induction k with
  | zero =>
    intro polls fuel hfuel _ h0
    obtain ⟨n, rfl⟩ : ∃ n, fuel = n + 1 := ⟨fuel - 1, by omega⟩
    rw [delayLoop_succ, if_neg (by omega)]
  | succ k ih =>
    intro polls fuel hfuel h1 h0
    obtain ⟨n, rfl⟩ : ∃ n, fuel = n + 1 := ⟨fuel - 1, by omega⟩
    rw [delayLoop_succ, if_pos (h1 0 (by omega)),
      ih (fun j => polls (j + 1)) n (by omega) (fun j hj => h1 (j + 1) (by omega)) h0]
    rfl

/-- While every poll made is below the threshold the loop of `delay` has
not ended. -/
theorem delayLoop_pending (start_time ms : Nat) : ∀ (fuel : Nat) (polls : Nat → Nat),
    (∀ j, j < fuel → sub32 (polls j) start_time < ms) →
    delayLoop start_time ms fuel polls = none := by
  intro fuel
  induction fuel with
  | zero => intros; rfl
  | succ n ih =>
    intro polls h1
    rw [delayLoop_succ, if_pos (h1 0 (by omega)),
      ih (fun j => polls (j + 1)) (fun j hj => h1 (j + 1) (by omega))]
    rfl

/-- C29: `delay(ms)` is safe across wrap-around of the tick counter. For
every start value and every sequence of polled tick values it returns at
the first poll whose value `t` has `(t - start) mod 2^32` at least
`(ms * (SystemCoreClock / 1000)) mod 2^32`, and not at an earlier poll; and
when `e < 2^32` ticks have elapsed since a 32-bit start value, the 32-bit
difference of the counter and the start is `e`, also when the counter has
wrapped past 0. -/
theorem delay_wrap_safe (ms : Nat) (s : Mcu) (tk : Nat → Nat) :
    (∀ k, (∀ j, j < k → sub32 (tk (j + 1)) (tk 0) < (ms * (s.SystemCoreClock / 1000)) % 2 ^ 32) →
      (ms * (s.SystemCoreClock / 1000)) % 2 ^ 32 ≤ sub32 (tk (k + 1)) (tk 0) →
      (∀ fuel, k < fuel → delay fuel ms s tk = some (k + 1)) ∧
      (∀ fuel, fuel ≤ k → delay fuel ms s tk = none)) ∧
    (∀ t start : Nat, t < 2 ^ 32 → start < 2 ^ 32 →
      ((sub32 t start : Nat) : Int) = ((t : Int) - (start : Int)) % 2 ^ 32) ∧
    (∀ start e : Nat, start < 2 ^ 32 → e < 2 ^ 32 →
      sub32 ((start + e) % 2 ^ 32) start = e) := by
  refine ⟨?_, ?_, ?_⟩
  · intro k h1 h0
    exact ⟨fun fuel hfuel => delayLoop_ends _ _ k (fun j => tk (j + 1)) fuel hfuel h1 h0,
      fun fuel hfuel => delayLoop_pending _ _ fuel (fun j => tk (j + 1))
        (fun j hj => h1 j (by omega))⟩
  · intro t start ht hs
    unfold sub32
    norm_num at ht hs ⊢
    omega
  · intro start e hs he
    unfold sub32
    norm_num at hs he ⊢
    omega

/-- C29, witness: at 8 MHz `delay(1)` waits for 8000 ticks; started at
`0xFFFFF000`, with polls at `0xFFFFFF00`, `0x00000100` and `0x00001000`, it
returns at the third poll, after the counter has wrapped. -/
theorem delay_wrap_safe_witness :
    delay 3 1 powerUp (fun j => [0xFFFFF000, 0xFFFFFF00, 0x00000100, 0x00001000].getD j 0)
      = some 3 ∧
    delay 2 1 powerUp (fun j => [0xFFFFF000, 0xFFFFFF00, 0x00000100, 0x00001000].getD j 0)
      = none ∧
    sub32 ((0xFFFFF000 + 8192) % 2 ^ 32) 0xFFFFF000 = 8192 :=
  ⟨((delay_wrap_safe 1 powerUp
      (fun j => [0xFFFFF000, 0xFFFFFF00, 0x00000100, 0x00001000].getD j 0)).1 2
      (fun j hj => by interval_cases j <;> decide) (by decide)).1 3 (by decide),
   ((delay_wrap_safe 1 powerUp
      (fun j => [0xFFFFF000, 0xFFFFFF00, 0x00000100, 0x00001000].getD j 0)).1 2
      (fun j hj => by interval_cases j <;> decide) (by decide)).2 2 (by decide),
   (delay_wrap_safe 1 powerUp (fun _ => 0)).2.2 0xFFFFF000 8192 (by decide) (by decide)⟩

/-! ## The pin table and `pinMode` -/

theorem GPIO_PinDef_entry (i : Nat) (hi : i < 32) :
    GPIO_PinDef[i]? = some ⟨if i < 16 then Port.GPIOA else Port.GPIOB, 1 <<< (i % 16)⟩ := by
  interval_cases i <;> rfl

/-- C24: the pin enum matches `GPIO_PinDef[]`. The table has 32 entries;
entry `i` is port A for `i < 16` and port B otherwise, with mask
`1 << (i mod 16)`; so `PAn` maps to (GPIOA, bit `n`) and `PBn` to (GPIOB,
bit `n`), every mask is a single bit below bit 16, and no two indices map to
the same port and mask. -/
theorem GPIO_PinDef_matches_enum :
    GPIO_PinDef.length = 32 ∧
    (∀ i, i < 32 → GPIO_PinDef[i]?
      = some ⟨if i < 16 then Port.GPIOA else Port.GPIOB, 1 <<< (i % 16)⟩) ∧
    (∀ n, n < 16 → GPIO_PinDef[PA n]? = some ⟨Port.GPIOA, 1 <<< n⟩ ∧
      GPIO_PinDef[PB n]? = some ⟨Port.GPIOB, 1 <<< n⟩) ∧
    (∀ d ∈ GPIO_PinDef, ∃ n, n < 16 ∧ d.mask = 2 ^ n) ∧
    GPIO_PinDef.Nodup := by
  refine ⟨rfl, GPIO_PinDef_entry, ?_, ?_, by decide⟩
  · intro n hn
    constructor <;> interval_cases n <;> rfl
  · intro d hd
    obtain ⟨i, hi, rfl⟩ := List.getElem_of_mem hd
    have hi32 : i < 32 := hi
    have h := GPIO_PinDef_entry i hi32
    rw [List.getElem?_eq_getElem hi] at h
    rw [Option.some.inj h]
    exact ⟨i % 16, Nat.mod_lt _ (by norm_num), Nat.one_shiftLeft _⟩

/-- C24, witness: `PB7`, the LED pin of `user_code.c`, is index 23 and maps
to port B, bit 7. -/
theorem GPIO_PinDef_matches_enum_witness :
    PB 7 = 23 ∧ GPIO_PinDef[PB 7]? = some ⟨Port.GPIOB, 0x80⟩ ∧
    GPIO_PinDef[23]? = some ⟨Port.GPIOB, 1 <<< (23 % 16)⟩ :=
  ⟨rfl, (GPIO_PinDef_matches_enum.2.2.1 7 (by decide)).2,
   GPIO_PinDef_matches_enum.2.1 23 (by decide)⟩

theorem testBit_set_bit (x n i : Nat) :
    (x ||| 1 <<< n).testBit i = (x.testBit i || decide (n = i)) := by
  rw [Nat.testBit_or, Nat.one_shiftLeft, Nat.testBit_two_pow]

theorem testBit_clear_bit (x n i : Nat) (hx : x < 2 ^ 32) :
    (x &&& (0xFFFFFFFF ^^^ 1 <<< n)).testBit i = (x.testBit i && !decide (n = i)) := by
  rw [Nat.testBit_and, Nat.testBit_xor, Nat.one_shiftLeft, Nat.testBit_two_pow,
    show (0xFFFFFFFF : Nat) = 2 ^ 32 - 1 from rfl, Nat.testBit_two_pow_sub_one]
  by_cases hi : i < 32
  · by_cases hni : n = i <;> simp [hi, hni]
  · have hxi : x.testBit i = false :=
      Nat.testBit_eq_false_of_lt (lt_of_lt_of_le hx (Nat.pow_le_pow_right (by norm_num)
        (by omega)))
    simp [hxi]

/-- C23: for every pin index below 32 and every mode, on 32-bit TRIS
registers, `pinMode(pin, mode)` sets the TRIS bit `pin mod 16` of the pin's
port when `mode` is `INPUT` and clears it for every other mode (`OUTPUT`,
and also `INPUT_PULLUP`); every other TRIS bit of that port, its other
registers and every other port are as before. -/
theorem pinMode_effect (pin mode : Nat) (g : Port → GPIO_TypeDef) (hpin : pin < 32)
    (hT : ∀ q, (g q).TRIS < 2 ^ 32) :
    ∃ g', pinMode pin mode g = some g' ∧
      (∀ i, ((g' (if pin < 16 then Port.GPIOA else Port.GPIOB)).TRIS).testBit i
        = if i = pin % 16 then decide (mode = INPUT)
          else ((g (if pin < 16 then Port.GPIOA else Port.GPIOB)).TRIS).testBit i) ∧
      (g' (if pin < 16 then Port.GPIOA else Port.GPIOB)).ANSEL
        = (g (if pin < 16 then Port.GPIOA else Port.GPIOB)).ANSEL ∧
      (g' (if pin < 16 then Port.GPIOA else Port.GPIOB)).PORT
        = (g (if pin < 16 then Port.GPIOA else Port.GPIOB)).PORT ∧
      (g' (if pin < 16 then Port.GPIOA else Port.GPIOB)).LAT
        = (g (if pin < 16 then Port.GPIOA else Port.GPIOB)).LAT ∧
      (∀ q, q ≠ (if pin < 16 then Port.GPIOA else Port.GPIOB) → g' q = g q) := by
  have he := GPIO_PinDef_entry pin hpin
  generalize (if pin < 16 then Port.GPIOA else Port.GPIOB) = P at he ⊢
  unfold pinMode
  rw [he]
  by_cases hm : mode = INPUT
  · refine ⟨FIO_IN g P (1 <<< (pin % 16)), by simp only [if_pos hm], ?_, ?_, ?_, ?_, ?_⟩
    · intro i
      simp only [FIO_IN, Function.update_same, testBit_set_bit]
      by_cases hi : i = pin % 16
      · simp [hi, hm]
      · have : ¬ pin % 16 = i := fun h => hi h.symm
        simp [hi, this]
    · simp [FIO_IN]
    · simp [FIO_IN]
    · simp [FIO_IN]
    · intro q hq
      simp [FIO_IN, Function.update_noteq hq]
  · refine ⟨FIO_OUT g P (1 <<< (pin % 16)), by simp only [if_neg hm], ?_, ?_, ?_, ?_, ?_⟩
    · intro i
      simp only [FIO_OUT, Function.update_same, testBit_clear_bit _ _ _ (hT P)]
      by_cases hi : i = pin % 16
      · simp [hi, hm]
      · have : ¬ pin % 16 = i := fun h => hi h.symm
        simp [hi, this]
    · simp [FIO_OUT]
    · simp [FIO_OUT]
    · simp [FIO_OUT]
    · intro q hq
      simp [FIO_OUT, Function.update_noteq hq]

/-- C23, witness: on the sample ports, `pinMode(PB7, INPUT)` sets bit 7 of
TRISB, and `pinMode(PA3, OUTPUT)` and `pinMode(PA3, INPUT_PULLUP)` clear bit
3 of TRISA. -/
theorem pinMode_effect_witness :
    ((pinMode (PB 7) INPUT gpioSample).map (fun g => ((g Port.GPIOA).TRIS, (g Port.GPIOB).TRIS))
      = some (0xFFFF, 0x80)) ∧
    ((pinMode (PA 3) OUTPUT gpioSample).map
      (fun g => ((g Port.GPIOA).TRIS, (g Port.GPIOB).TRIS)) = some (0xFFF7, 0)) ∧
    ((pinMode (PA 3) INPUT_PULLUP gpioSample).map
      (fun g => ((g Port.GPIOA).TRIS, (g Port.GPIOB).TRIS)) = some (0xFFF7, 0)) ∧
    (∃ g', pinMode (PB 7) INPUT gpioSample = some g' ∧
      ((g' Port.GPIOB).TRIS).testBit 7 = true ∧ g' Port.GPIOA = gpioSample Port.GPIOA) := by
  refine ⟨by decide, by decide, by decide, ?_⟩
  obtain ⟨g', h, hb, _, _, _, ho⟩ := pinMode_effect (PB 7) INPUT gpioSample (by decide)
    (fun q => by cases q <;> decide)
  exact ⟨g', h, (hb 7).trans (by decide), ho Port.GPIOA (by decide)⟩

/-! ## `tmr45Init` -/

/-- The period register of Timer2 after `tmr45Init(ps, period)`: the
`uint32_t` argument. -/
theorem tmr45Init_PR2 (ps period : Nat) (st : Mcu × Tmr45) :
    (tmr45Init ps period st).1.PR2 = period % 2 ^ 32 :=
  rfl

/-- The period register of Timer4 after `tmr45Init(ps, period)`: the low 16
bits of the argument, written by `tmr4Init`. -/
theorem tmr45Init_PR4 (ps period : Nat) (st : Mcu × Tmr45) :
    (tmr45Init ps period st).2.PR4 = period % 2 ^ 16 :=
  rfl

/-- C25, the code at a failing input: after `mcuInit` has set PR2 to
`0xffff`, `tmr45Init(0, 1000)` leaves 1000 in PR2; with the period
`0x12345678` it leaves `0x12345678` in PR2 and only `0x5678` in PR4. -/
theorem tmr45Init_overwrites_PR2 :
    (mcuInit .XC32 powerUp).PR2 = 0xffff ∧
    (tmr45Init 0 1000 (mcuInit .XC32 powerUp, tmr45Sample)).1.PR2 = 1000 ∧
    (tmr45Init 0 0x12345678 (mcuInit .XC32 powerUp, tmr45Sample)).1.PR2 = 0x12345678 ∧
    (tmr45Init 0 0x12345678 (mcuInit .XC32 powerUp, tmr45Sample)).2.PR4 = 0x5678 ∧
    (tmr45Init 0 0x12345678 (mcuInit .XC32 powerUp, tmr45Sample)).2.PR5 = 0x1234 ∧
    (tmr45Init 0 0x12345678 (mcuInit .XC32 powerUp, tmr45Sample)).2.TMR4 = 0 ∧
    (tmr45Init 0 0x12345678 (mcuInit .XC32 powerUp, tmr45Sample)).2.T4T32 = true := by
  refine ⟨?_, ?_, ?_, ?_, ?_, ?_, ?_⟩ <;> decide

/-! ## `u1Print` and `u2Print` -/

theorem tmod_ofNat (n : Nat) : Int.tmod (n : Int) 10 = ((n % 10 : Nat) : Int) := by
  exact_mod_cast (Int.ofNat_tmod n 10).symm

theorem tdiv_ofNat (n : Nat) : Int.tdiv (n : Int) 10 = ((n / 10 : Nat) : Int) := by
  exact_mod_cast (Int.ofNat_tdiv n 10).symm

theorem digitChar_ofNat (n : Nat) : digitChar (n : Int) = Char.ofNat (48 + n % 10) := by
  unfold digitChar
  rw [tmod_ofNat]
  congr 1
  omega

theorem decDigit_ne_NUL (n i : Nat) : decDigit n i ≠ NUL := by
  unfold decDigit
  have h : n / 10 ^ i % 10 < 10 := Nat.mod_lt _ (by norm_num)
  generalize n / 10 ^ i % 10 = d at h
  interval_cases d <;> decide

theorem exists_twenty (l : List Char) (h : 20 ≤ l.length) :
    ∃ a0 a1 a2 a3 a4 a5 a6 a7 a8 a9 a10 a11 a12 a13 a14 a15 a16 a17 a18 a19 r, l = a0 :: a1 :: a2 :: a3 :: a4 :: a5 :: a6 :: a7 :: a8 :: a9 :: a10 :: a11 :: a12 :: a13 :: a14 :: a15 :: a16 :: a17 :: a18 :: a19 :: r := by
  rcases l with _ | ⟨a0, l⟩
  · simp at h
  rcases l with _ | ⟨a1, l⟩
  · simp at h
  rcases l with _ | ⟨a2, l⟩
  · simp at h
  rcases l with _ | ⟨a3, l⟩
  · simp at h
  rcases l with _ | ⟨a4, l⟩
  · simp at h
  rcases l with _ | ⟨a5, l⟩
  · simp at h
  rcases l with _ | ⟨a6, l⟩
  · simp at h
  rcases l with _ | ⟨a7, l⟩
  · simp at h
  rcases l with _ | ⟨a8, l⟩
  · simp at h
  rcases l with _ | ⟨a9, l⟩
  · simp at h
  rcases l with _ | ⟨a10, l⟩
  · simp at h
  rcases l with _ | ⟨a11, l⟩
  · simp at h
  rcases l with _ | ⟨a12, l⟩
  · simp at h
  rcases l with _ | ⟨a13, l⟩
  · simp at h
  rcases l with _ | ⟨a14, l⟩
  · simp at h
  rcases l with _ | ⟨a15, l⟩
  · simp at h
  rcases l with _ | ⟨a16, l⟩
  · simp at h
  rcases l with _ | ⟨a17, l⟩
  · simp at h
  rcases l with _ | ⟨a18, l⟩
  · simp at h
  rcases l with _ | ⟨a19, l⟩
  · simp at h
  exact ⟨a0, a1, a2, a3, a4, a5, a6, a7, a8, a9, a10, a11, a12, a13, a14, a15, a16, a17, a18, a19, l, rfl⟩

/-- The digits and commas written into a buffer whose first twenty
characters are given, for a non-negative value. -/
theorem fillDigits_cons (a0 a1 a2 a3 a4 a5 a6 a7 a8 a9 a10 a11 a12 a13 a14 a15 a16 a17 a18 a19 : Char) (tl : List Char) (n : Nat) :
    fillDigits (a0 :: a1 :: a2 :: a3 :: a4 :: a5 :: a6 :: a7 :: a8 :: a9 :: a10 :: a11 :: a12 :: a13 :: a14 :: a15 :: a16 :: a17 :: a18 :: a19 :: tl) (n : Int)
      = a0 :: a1 :: a2 :: a3 :: a4 :: a5 :: a6 :: (numberField n ++ tl) := by
  simp only [fillDigits, tdiv_ofNat, digitChar_ofNat, List.set_cons_succ, List.set_cons_zero,
    numberField, decDigit, List.cons_append, List.nil_append, Nat.div_div_eq_div_mul]
  norm_num

theorem fillDigits_length (uRAM : List Char) (dat : Int) :
    (fillDigits uRAM dat).length = uRAM.length := by
  simp [fillDigits]

theorem cString_append_NUL (pre junk : List Char) (h : ∀ c ∈ pre, c ≠ NUL) :
    cString (pre ++ NUL :: junk) = pre := by
  unfold cString
  induction pre with
  | nil => simp
  | cons a pre ih =>
    have ha : a ≠ NUL := h a (List.mem_cons_self _ _)
    rw [List.cons_append, List.takeWhile_cons, if_pos (by simpa using ha),
      ih (fun c hc => h c (List.mem_cons_of_mem _ hc))]

theorem numberField_ne_NUL (n : Nat) : ∀ c ∈ numberField n, c ≠ NUL := by
  intro c hc
  simp only [numberField, List.mem_cons, List.mem_singleton, List.not_mem_nil, or_false] at hc
  rcases hc with h | h | h | h | h | h | h | h | h | h | h | h | h <;> rw [h] <;>
    first
      | exact decDigit_ne_NUL _ _
      | decide

/-- The characters sent for a template of at least twenty characters. -/
theorem print_nonneg (uRAM0 str : List Char) (n : Nat) (hlen : 20 ≤ str.length)
    (hnul : ∀ c ∈ str, c ≠ NUL) :
    cString (fillBuffer uRAM0 str (n : Int))
      = str.take 7 ++ numberField n ++ str.drop 20 := by
  obtain ⟨a0, a1, a2, a3, a4, a5, a6, a7, a8, a9, a10, a11, a12, a13, a14, a15, a16, a17, a18, a19, r, rfl⟩ := exists_twenty str hlen
  have hneg : ¬ ((n : Int) < 0) := by omega
  unfold fillBuffer strcpy
  simp only [if_neg hneg, List.cons_append, fillDigits_cons]
  have e : a0 :: a1 :: a2 :: a3 :: a4 :: a5 :: a6 :: (numberField n ++
      (r ++ NUL :: List.drop ((a0 :: a1 :: a2 :: a3 :: a4 :: a5 :: a6 :: a7 :: a8 :: a9 :: a10 :: a11 :: a12 :: a13 :: a14 :: a15 :: a16 :: a17 :: a18 :: a19 :: r).length + 1) uRAM0))
      = (a0 :: a1 :: a2 :: a3 :: a4 :: a5 :: a6 :: (numberField n ++ r)) ++
        NUL :: List.drop ((a0 :: a1 :: a2 :: a3 :: a4 :: a5 :: a6 :: a7 :: a8 :: a9 :: a10 :: a11 :: a12 :: a13 :: a14 :: a15 :: a16 :: a17 :: a18 :: a19 :: r).length + 1) uRAM0 := by
    simp
  rw [e, cString_append_NUL]
  · simp
  · intro c hc
    simp only [List.mem_cons, List.mem_append] at hc
    rcases hc with h | h | h | h | h | h | h | h | h
    · exact h ▸ hnul a0 (by simp)
    · exact h ▸ hnul a1 (by simp)
    · exact h ▸ hnul a2 (by simp)
    · exact h ▸ hnul a3 (by simp)
    · exact h ▸ hnul a4 (by simp)
    · exact h ▸ hnul a5 (by simp)
    · exact h ▸ hnul a6 (by simp)
    · exact numberField_ne_NUL n c h
    · exact hnul c (by simp [h])

theorem print_neg (uRAM0 str : List Char) (dat : Int) (hlen : 20 ≤ str.length)
    (hnul : ∀ c ∈ str, c ≠ NUL) (h1 : -2147483647 ≤ dat) (h2 : dat < 0) :
    cString (fillBuffer uRAM0 str dat)
      = str.take 6 ++ '-' :: numberField dat.natAbs ++ str.drop 20 := by
  obtain ⟨a0, a1, a2, a3, a4, a5, a6, a7, a8, a9, a10, a11, a12, a13, a14, a15, a16, a17, a18, a19, r, rfl⟩ := exists_twenty str hlen
  have hn : neg32 dat = ((dat.natAbs : Nat) : Int) := by
    unfold neg32
    rw [if_neg (by omega)]
    omega
  unfold fillBuffer strcpy
  simp only [if_pos h2, hn, List.cons_append, List.set_cons_succ, List.set_cons_zero,
    fillDigits_cons]
  have e : a0 :: a1 :: a2 :: a3 :: a4 :: a5 :: '-' :: (numberField dat.natAbs ++
      (r ++ NUL :: List.drop ((a0 :: a1 :: a2 :: a3 :: a4 :: a5 :: a6 :: a7 :: a8 :: a9 :: a10 :: a11 :: a12 :: a13 :: a14 :: a15 :: a16 :: a17 :: a18 :: a19 :: r).length + 1) uRAM0))
      = (a0 :: a1 :: a2 :: a3 :: a4 :: a5 :: '-' :: (numberField dat.natAbs ++ r)) ++
        NUL :: List.drop ((a0 :: a1 :: a2 :: a3 :: a4 :: a5 :: a6 :: a7 :: a8 :: a9 :: a10 :: a11 :: a12 :: a13 :: a14 :: a15 :: a16 :: a17 :: a18 :: a19 :: r).length + 1) uRAM0 := by
    simp
  rw [e, cString_append_NUL]
  · simp
  · intro c hc
    simp only [List.mem_cons, List.mem_append] at hc
    rcases hc with h | h | h | h | h | h | h | h | h
    · exact h ▸ hnul a0 (by simp)
    · exact h ▸ hnul a1 (by simp)
    · exact h ▸ hnul a2 (by simp)
    · exact h ▸ hnul a3 (by simp)
    · exact h ▸ hnul a4 (by simp)
    · exact h ▸ hnul a5 (by simp)
    · rw [h]; decide
    · exact numberField_ne_NUL _ c h
    · exact hnul c (by simp [h])

/-- C26: `u2Print`, and identically `u1Print`, formats the number into
fixed columns. For every template of length 20 to 39 and every `dat` from 0
to 2,147,483,647 the characters sent are the template with positions 7 to 19
replaced by the ten zero-padded decimal digits of `dat`, most significant
first, with commas at positions 8, 12 and 16, positions 0 to 6 and 20 onward
being unchanged; for `dat` from -2,147,483,647 to -1 the digits are those of
`|dat|` and position 6 is `'-'`. The writes stay within the 40 characters
of the buffer. -/
theorem u2Print_format (uRAM0 str : List Char) (dat : Int) (hbuf : uRAM0.length = 40)
    (hlen : 20 ≤ str.length) (hlen' : str.length ≤ 39) (hnul : ∀ c ∈ str, c ≠ NUL) :
    (0 ≤ dat → dat ≤ 2147483647 →
      u2Print uRAM0 str dat = str.take 7 ++ numberField dat.natAbs ++ str.drop 20) ∧
    (-2147483647 ≤ dat → dat < 0 →
      u2Print uRAM0 str dat = str.take 6 ++ '-' :: numberField dat.natAbs ++ str.drop 20) ∧
    u1Print uRAM0 str dat = u2Print uRAM0 str dat ∧
    (numberField dat.natAbs).length = 13 ∧
    (fillBuffer uRAM0 str dat).length = 40 := by
  refine ⟨?_, ?_, rfl, rfl, ?_⟩
  · intro h0 _
    obtain ⟨n, rfl⟩ := Int.eq_ofNat_of_zero_le h0
    exact print_nonneg uRAM0 str n hlen hnul
  · intro h1 h2
    exact print_neg uRAM0 str dat hlen hnul h1 h2
  · have hs : (strcpy uRAM0 str).length = 40 := by
      unfold strcpy
      simp only [List.length_append, List.length_cons, List.length_drop]
      omega
    unfold fillBuffer
    split_ifs <;> simp [fillDigits_length, hs]

/-- C26, witness: `u2Print("F_CPU=                 ", 8000000)` sends
`"F_CPU= 0,008,000,000   "`, and with -8000000 the same with `'-'` at
position 6. -/
theorem u2Print_format_witness :
    u2Print uRAMSample "F_CPU=                 ".toList 8000000
      = "F_CPU= 0,008,000,000   ".toList ∧
    u2Print uRAMSample "F_CPU=                 ".toList (-8000000)
      = "F_CPU=-0,008,000,000   ".toList :=
  ⟨((u2Print_format uRAMSample "F_CPU=                 ".toList 8000000 (by decide)
      (by decide) (by decide) (by decide)).1 (by decide) (by decide)).trans (by decide),
   ((u2Print_format uRAMSample "F_CPU=                 ".toList (-8000000) (by decide)
      (by decide) (by decide) (by decide)).2.1 (by decide) (by decide)).trans (by decide)⟩

end Pic32duino
